import Mathlib

/-!
Shallow embedding of the run-cache and orchestration layer of `ndop`
(`src/model/eval.py`, class `Model`).

Modelling conventions:
* Python floats are embedded as `ℚ`.  The only float-specific behaviour the
  claims mention is NaN propagation; values that can be NaN are embedded by
  the type `Val` below.
* Python exceptions are embedded as `Except PyErr`.  A `PyErr.fuel` result
  marks a non-terminating execution (the embedding gives recursion explicit
  fuel); every terminating execution of the source is reached with the fuel
  the theorems supply.
* Euclidean distances between parameter vectors are tracked by their squares
  (`distSq`), which keeps all comparisons in `ℚ`.  Squaring is an order
  isomorphism on nonnegative reals, so every comparison the source makes
  between a distance and a nonnegative threshold (or another distance, or 0)
  is preserved; thresholds in the config are therefore stored squared.
* Constants imported from `ndop.model.constants` (a file that is not part of
  `src/`) are fields of `ModelConfig`, modelled from the spec.
-/

deriving instance DecidableEq for Except

namespace NdopModel

/-- Embedded Python exception classes (plus `fuel` marking non-termination). -/
inductive PyErr where
  | valueError
  | typeError
  | nameError
  | osError
  | assertionError
  | indexError
  | fuel
  deriving DecidableEq, Repr

/-- A float value that may be NaN.  Arithmetic propagates NaN. -/
inductive Val where
  | num (q : ℚ)
  | nan
  deriving DecidableEq, Repr

def Val.add : Val → Val → Val
  | Val.num a, Val.num b => Val.num (a + b)
  | _, _ => Val.nan

def Val.sub : Val → Val → Val
  | Val.num a, Val.num b => Val.num (a - b)
  | _, _ => Val.nan

def Val.scale (c : ℚ) : Val → Val
  | Val.num a => Val.num (c * a)
  | Val.nan => Val.nan

/-- Division by an embedded rational (NaN propagates; division by zero is
`0/0`-style NaN, matching IEEE semantics of the source's float division). -/
def Val.divQ : Val → ℚ → Val
  | Val.num a, c => if c = 0 then Val.nan else Val.num (a / c)
  | Val.nan, _ => Val.nan

def Val.isnan : Val → Bool
  | Val.num _ => false
  | Val.nan => true

/-- A value stored in a spinup-options dict: numbers or strings occur. -/
inductive SpinupVal where
  | num (q : ℚ)
  | str (s : String)
  deriving DecidableEq, Repr

/-- A spinup-options dict: each of the three keys may be absent (`none`). -/
structure SpinupOptions where
  years : Option SpinupVal
  tolerance : Option SpinupVal
  combination : Option SpinupVal
  deriving DecidableEq, Repr

inductive OptKey where
  | years
  | tolerance
  | combination
  deriving DecidableEq, Repr

def SpinupOptions.lookup (o : SpinupOptions) : OptKey → Option SpinupVal
  | OptKey.years => o.years
  | OptKey.tolerance => o.tolerance
  | OptKey.combination => o.combination

/-- Warnings the source emits via `warnings.warn`. -/
inductive Warning where
  | invalidCombination
  | ceilingToleranceWaived
  | unreadableParameters
  deriving DecidableEq, Repr

/-- Path components of the filesystem-as-database.  Directory names produced
by the source's format-string constants are abstracted per pattern:
`MODEL_RUN_DIRNAME.format(i)` is `run i`, `MODEL_PARAMETERS_SET_DIRNAME`
is `pset i`, `MODEL_PARTIAL_DERIVATIVE_DIRNAME.format(i, sign)` is
`partial i sign`, and fixed names are `name s`. -/
inductive PathComp where
  | name (s : String)
  | run (n : ℕ)
  | pset (n : ℕ)
  | part (i : ℕ) (sign : ℤ)
  deriving DecidableEq, Repr

abbrev Path := List PathComp

/-- Events the orchestration layer sends to the external job system, plus
emitted warnings.  `submit p waited` records `job.start()` for the run at
directory `p`, with `waited` recording whether the submitting call's wait
interval was truthy (i.e. whether it blocks right after submission). -/
inductive Event where
  | submit (p : Path) (waited : Bool)
  | wait (p : Path)
  | warn (w : Warning)
  deriving DecidableEq, Repr

/-- A wait interval: `none` embeds Python `False`, `some q` a number of
seconds.  Python truthiness: `False` and `0` are falsy. -/
abbrev WaitSpec := Option ℚ

def WaitSpec.truthy : WaitSpec → Bool
  | none => false
  | some q => q ≠ 0

/-- Configuration of a `Model` instance.  Bounds and default spinup options
are constructor arguments in the source; the remaining fields embed
constants from `ndop.model.constants`, which is not under `src/`:
they are modelled from the spec (a hard maximum-years ceiling
`MODEL_SPINUP_MAX_YEARS`, a fixed derivative spinup margin
`MODEL_DERIVATIVE_SPINUP_YEARS`, a fixed maximum-difference threshold
`MODEL_PARAMETERS_MAX_DIFF` stored squared, and the flag
`MODEL_START_FROM_CLOSEST_PARAMETER_SET`). -/
structure ModelConfig where
  parametersLowerBound : List ℚ
  parametersUpperBound : List ℚ
  defaultSpinupOptions : SpinupOptions
  spinupMaxYears : ℚ
  derivativeSpinupYears : ℚ
  parametersMaxDiffSq : ℚ
  startFromClosest : Bool
  timeStep : ℚ

/-- `Model.spinup_option` (eval.py lines 516-532).  Looks an option up in the
supplied dict (`none` embeds passing `spinup_options=None`); a missing key
gives `None`.  For the key `'combination'` an invalid value is warned about
and the lookup falls back to the model's default spinup options; for other
keys the looked-up value (possibly `None`) is returned as-is.  The source's
self-recursion is given explicit fuel; every terminating execution needs
fuel at most 2. -/
def spinup_option (cfg : ModelConfig) (key : OptKey) :
    Option SpinupOptions → ℕ → Except PyErr (Option SpinupVal × List Warning)
  | _, 0 => Except.error PyErr.fuel
  | some o, fuel + 1 =>
      let v := o.lookup key
      if key = OptKey.combination then
        if v = some (SpinupVal.str "and") ∨ v = some (SpinupVal.str "or") then
          Except.ok (v, [])
        else
          match spinup_option cfg key (some cfg.defaultSpinupOptions) fuel with
          | Except.ok (r, ws) => Except.ok (r, Warning.invalidCombination :: ws)
          | Except.error e => Except.error e
      else
        Except.ok (v, [])
  | none, fuel + 1 =>
      spinup_option cfg key (some cfg.defaultSpinupOptions) fuel

/-- `Model.all_spinup_options` (eval.py lines 534-538): the three options in
order (years, tolerance, combination), with accumulated warnings.  Fuel 2
covers every terminating execution of `spinup_option`. -/
def all_spinup_options (cfg : ModelConfig) (opts : Option SpinupOptions) :
    Except PyErr ((Option SpinupVal × Option SpinupVal × Option SpinupVal) × List Warning) := do
  let (y, wy) ← spinup_option cfg OptKey.years opts 2
  let (t, wt) ← spinup_option cfg OptKey.tolerance opts 2
  let (c, wc) ← spinup_option cfg OptKey.combination opts 2
  Except.ok ((y, t, c), wy ++ wt ++ wc)

/-- Python `run_years >= years` where the right side is a looked-up option
value: comparing a float with `None` or a string raises `TypeError`. -/
def pyGEval (a : ℚ) : Option SpinupVal → Except PyErr Bool
  | some (SpinupVal.num q) => Except.ok (decide (a ≥ q))
  | _ => Except.error PyErr.typeError

def pyLEval (a : ℚ) : Option SpinupVal → Except PyErr Bool
  | some (SpinupVal.num q) => Except.ok (decide (a ≤ q))
  | _ => Except.error PyErr.typeError

def pyGTval (a : ℚ) : Option SpinupVal → Except PyErr Bool
  | some (SpinupVal.num q) => Except.ok (decide (a > q))
  | _ => Except.error PyErr.typeError

/-- Coerce a looked-up option value to a number (`TypeError` otherwise, as
its first arithmetic use would raise in the source). -/
def pyNum : Option SpinupVal → Except PyErr ℚ
  | some (SpinupVal.num q) => Except.ok q
  | _ => Except.error PyErr.typeError

/-- `Model.is_run_matching_options` (eval.py lines 548-574).  The run
directory is embedded by the pair of values the source reads from it:
`(get_total_years run_dir, get_real_tolerance run_dir)`; `none` embeds
`run_dir is None`.  Returns the match result and the emitted warnings.
Python's short-circuit evaluation of `and`/`or` is preserved. -/
def is_run_matching_options (cfg : ModelConfig) (runData : Option (ℚ × ℚ))
    (opts : Option SpinupOptions) : Except PyErr (Bool × List Warning) := do
  let ((years, tolerance, combination), ws) ← all_spinup_options cfg opts
  match runData with
  | some (runYears, runTolerance) =>
      if combination = some (SpinupVal.str "and") then do
        let a ← pyGEval runYears years
        let both ← if a then pyLEval runTolerance tolerance else Except.ok false
        let isMatching := both || decide (runYears ≥ cfg.spinupMaxYears)
        let warnTol ← if isMatching then pyGTval runTolerance tolerance else Except.ok false
        let ws' := if isMatching && warnTol then ws ++ [Warning.ceilingToleranceWaived] else ws
        Except.ok (isMatching, ws')
      else if combination = some (SpinupVal.str "or") then do
        let a ← pyGEval runYears years
        let isMatching ← if a then Except.ok true else pyLEval runTolerance tolerance
        Except.ok (isMatching, ws)
      else
        Except.error PyErr.valueError
  | none => Except.ok (false, ws)

/-- The step-size and perturbed-value computation of `Model._df` for one
parameter index and one perturbation factor (eval.py lines 871-897).  The
source first sets `eta` to `sqrt(spacing(1))` and then overwrites it with
`10**(-7)`; only the final value is live.  Returns the recomputed step `h`
(the realized difference) and the perturbed parameter value. -/
def derivative_step (lowerBound upperBound p : ℚ) (hFactor : ℤ)
    (accuracyOrder : ℕ) : ℚ × ℚ :=
  let eta : ℚ := 1 / 10 ^ 7
  let hI : ℚ := max |p| (1 / 10) * eta
  let h0 : ℚ := (hFactor : ℚ) * hI
  let pDer0 : ℚ := p + h0
  let violatesLower : Bool := decide (pDer0 < lowerBound)
  let violatesUpper : Bool := decide (pDer0 > upperBound)
  let pDer : ℚ :=
    if accuracyOrder = 1 then
      if violatesLower || violatesUpper then p + (-h0) else pDer0
    else
      if violatesLower then lowerBound
      else if violatesUpper then upperBound
      else pDer0
  (pDer - p, pDer)

/-- `util.pattern.get_int_in_string` applied to a directory-name component:
extracts the integer the name pattern embeds; a name with no integer raises. -/
def get_int_in_comp : PathComp → Except PyErr ℕ
  | PathComp.run n => Except.ok n
  | PathComp.pset n => Except.ok n
  | PathComp.part i _ => Except.ok i
  | PathComp.name _ => Except.error PyErr.valueError

/-- `Model.get_previous_run_dir` (eval.py lines 661-674): split the run dir
into parent and dirname, parse the run index, and rebuild the previous run's
directory name; index 0 has no previous run. -/
def get_previous_run_dir (p : Path) : Except PyErr (Option Path) :=
  match List.getLast? p with
  | none => Except.error PyErr.valueError
  | some last => do
      let idx ← get_int_in_comp last
      if idx > 0 then
        Except.ok (some (List.dropLast p ++ [PathComp.run (idx - 1)]))
      else
        Except.ok none

/-- A view of the job files on disk: the `last_year` value of the job at each
run directory (`none`: the job options file is unreadable, so constructing
`Metos3D_Job` raises an `OSError`). -/
abbrev RunFs := Path → Option ℚ

/-- `Model.get_total_years` (eval.py lines 679-688): walk the chain from the
given run through `get_previous_run_dir`, summing each job's `last_year`.
`none` embeds `run_dir is None` (the loop body never executes, total 0).
The while loop is given fuel; the run index strictly decreases along the
chain, so fuel `index + 1` covers every terminating execution. -/
def get_total_years (fs : RunFs) : Option Path → ℕ → Except PyErr ℚ
  | none, _ => Except.ok 0
  | some _, 0 => Except.error PyErr.fuel
  | some p, fuel + 1 =>
      match fs p with
      | none => Except.error PyErr.osError
      | some y => do
          let prev ← get_previous_run_dir p
          let rest ← get_total_years fs prev fuel
          Except.ok (y + rest)

/-- Sufficient `get_total_years` fuel for a run directory: its run index + 1. -/
def run_index_fuel (p : Path) : ℕ :=
  match List.getLast? p with
  | some (PathComp.run j) => j + 1
  | _ => 1

/-- `Model.check_if_parameters_in_bounds` (eval.py lines 130-149): raises if
any parameter is below its lower bound or above its upper bound (numpy
elementwise comparison; a length mismatch is itself an error). -/
def check_if_parameters_in_bounds (cfg : ModelConfig) (params : List ℚ) :
    Except PyErr Unit :=
  if params.length ≠ cfg.parametersLowerBound.length ∨
      params.length ≠ cfg.parametersUpperBound.length then
    Except.error PyErr.valueError
  else if (params.zip cfg.parametersLowerBound).any (fun pr => decide (pr.1 < pr.2)) then
    Except.error PyErr.valueError
  else if (params.zip cfg.parametersUpperBound).any (fun pr => decide (pr.1 > pr.2)) then
    Except.error PyErr.valueError
  else
    Except.ok ()

/-- `Model.wait_until_job_finished` (eval.py lines 486-496): with a truthy
wait interval, block on the job at `run_dir` (one `wait` event); with a
falsy interval (`False` / `0`), do not wait at all. -/
def wait_until_job_finished (runDir : Path) (waitSeconds : WaitSpec) : List Event :=
  if WaitSpec.truthy waitSeconds then [Event.wait runDir] else []

/-- `Model.run_job` (eval.py lines 433-478): assert the request is sane,
check bounds, submit the job (`job.start()`), then wait according to the
wait interval.  The submit event records whether this call blocks. -/
def run_job (cfg : ModelConfig) (params : List ℚ) (outputPath : Path)
    (years tolerance timeStep : ℚ) (waitSeconds : WaitSpec) :
    Except PyErr (List Event) := do
  if years < 0 ∨ tolerance < 0 ∨ timeStep < 1 then
    Except.error PyErr.assertionError
  else do
    check_if_parameters_in_bounds cfg params
    Except.ok (Event.submit outputPath (WaitSpec.truthy waitSeconds) ::
      wait_until_job_finished outputPath waitSeconds)

/-- `Model.make_run` (eval.py lines 392-426): check bounds, allocate the next
run index under `output_path` (`numRuns` is the number of run directories
the caller's state records there, the value `len(self.get_run_dirs(...))`
computes), persist the run options read-only, compute the incremental years
to submit — the input run's accumulated years are subtracted exactly when it
lives in the same parent directory — and run the job.  Returns the new run
directory, the submitted years, and the emitted events. -/
def make_run (cfg : ModelConfig) (fs : RunFs) (numRuns : ℕ) (outputPath : Path)
    (params : List ℚ) (years tolerance timeStep : ℚ)
    (tracerInputPath : Option Path) (waitSeconds : WaitSpec) :
    Except PyErr (Path × ℚ × List Event) := do
  check_if_parameters_in_bounds cfg params
  let runDir := outputPath ++ [PathComp.run numRuns]
  let lastYears ← match tracerInputPath with
    | some tp =>
        if outputPath = List.dropLast tp then
          get_total_years fs (some tp) (run_index_fuel tp)
        else
          Except.ok 0
    | none => Except.ok 0
  let submitted := years - lastYears
  let ev ← run_job cfg params runDir submitted tolerance timeStep waitSeconds
  Except.ok (runDir, submitted, ev)

/-- One parameter-set directory: its stored parameter vector (`none`: the
parameters file cannot be read, an I/O failure) and whether the file has
been chmod'ed read-only. -/
structure SetEntry where
  stored : Option (List ℚ)
  readOnly : Bool
  deriving DecidableEq, Repr

/-- `Model.get_parameters_diff` (eval.py lines 155-163): load the candidate's
parameters file (I/O failure raises `OSError`) and return the Euclidean
distance, embedded squared (see module header). -/
def get_parameters_diff (params : List ℚ) (e : SetEntry) : Except PyErr ℚ :=
  match e.stored with
  | none => Except.error PyErr.osError
  | some v =>
      if params.length ≠ v.length then Except.error PyErr.valueError
      else Except.ok (((params.zip v).map (fun pr => (pr.1 - pr.2) ^ 2)).sum)

/-- `current_parameters_diff < closest_parameters_diff` on the `inf`-capable
distance domain (`none` embeds `float('inf')`). -/
def diffLt : Option ℚ → Option ℚ → Bool
  | some a, some b => decide (a < b)
  | some _, none => true
  | none, _ => false

/-- `closest_parameters_diff > 0` on the same domain. -/
def diffGtZero : Option ℚ → Bool
  | none => true
  | some d => decide (d > 0)

/-- The while loop of `Model.get_closest_parameter_set_dir` (eval.py lines
259-281) over the enumerated parameter-set directories.  For a candidate
whose parameters file cannot be read, the `except` handler formats a warning
naming `current_parameters_file` — a variable that is bound nowhere in that
scope — so the handler itself raises `NameError` (the `OSError` branch
below).  `noSpinupOkay = false` additionally requires the candidate to have
at least one run in its spinup directory. -/
def closest_scan (params : List ℚ) (spinupNonempty : ℕ → Bool)
    (noSpinupOkay : Bool) :
    List (ℕ × SetEntry) → Option ℕ → Option ℚ → Except PyErr (Option ℕ)
  | [], best, _ => Except.ok best
  | (i, e) :: rest, best, bestDiff =>
      if diffGtZero bestDiff then do
        let d ← match get_parameters_diff params e with
          | Except.ok d => Except.ok (some d)
          | Except.error PyErr.osError => Except.error PyErr.nameError
          | Except.error err => Except.error err
        let better := diffLt d bestDiff && (noSpinupOkay || spinupNonempty i)
        if better then
          closest_scan params spinupNonempty noSpinupOkay rest (some i) d
        else
          closest_scan params spinupNonempty noSpinupOkay rest best bestDiff
      else
        Except.ok best

/-- `Model.get_closest_parameter_set_dir` (eval.py lines 238-288): check
bounds, then — if the time-step directory exists — scan all parameter-set
directories for the one closest to `params` (stopping early on an exact
match).  Returns the index of the closest parameter set, if any. -/
def get_closest_parameter_set_dir (cfg : ModelConfig) (tsExists : Bool)
    (sets : List SetEntry) (spinupNonempty : ℕ → Bool) (params : List ℚ)
    (noSpinupOkay : Bool) : Except PyErr (Option ℕ) := do
  check_if_parameters_in_bounds cfg params
  if tsExists then
    closest_scan params spinupNonempty noSpinupOkay sets.enum none none
  else
    Except.ok none

/-- Modelled from the spec: the intended behaviour of the closest-parameter
scan at an unreadable candidate — "A candidate unreadable due to I/O failure
is skipped with a warning and treated as distance = infinity" — which the
source's handler fails to realize (see `closest_scan`).  Differs from
`closest_scan` only in the `OSError` branch: warn and continue with
distance `inf`. -/
def closest_scan_intended (params : List ℚ) (spinupNonempty : ℕ → Bool)
    (noSpinupOkay : Bool) :
    List (ℕ × SetEntry) → Option ℕ → Option ℚ →
      Except PyErr (Option ℕ × List Warning)
  | [], best, _ => Except.ok (best, [])
  | (i, e) :: rest, best, bestDiff =>
      if diffGtZero bestDiff then do
        let (d, w) ← match get_parameters_diff params e with
          | Except.ok d => Except.ok ((some d : Option ℚ), ([] : List Warning))
          | Except.error PyErr.osError =>
              Except.ok (none, [Warning.unreadableParameters])
          | Except.error err => Except.error err
        let better := diffLt d bestDiff && (noSpinupOkay || spinupNonempty i)
        let next ←
          if better then
            closest_scan_intended params spinupNonempty noSpinupOkay rest (some i) d
          else
            closest_scan_intended params spinupNonempty noSpinupOkay rest best bestDiff
        Except.ok (next.1, w ++ next.2)
      else
        Except.ok (best, [])

/-- The free-index search of `Model.get_parameter_set_dir` (eval.py lines
315-323): the first index whose directory does not exist yet.  The source
initializes the counter to the number of directories and immediately resets
it to 0; the loop then counts up from 0. -/
def first_free (isUsed : ℕ → Bool) : ℕ → ℕ → ℕ
  | start, 0 => start
  | start, fuel + 1 => if isUsed start then first_free isUsed (start + 1) fuel else start

/-- `Model.get_parameter_set_dir` (eval.py lines 293-338): find the closest
parameter set; accept it iff its distance is within the maximum-difference
threshold (both sides squared, see module header); otherwise — with
`create` — allocate the next free index, write the parameter vector and
chmod it read-only (the appended `SetEntry`); without `create`, return
nothing.  Returns the chosen index and the updated directory list. -/
def get_parameter_set_dir (cfg : ModelConfig) (tsExists : Bool)
    (sets : List SetEntry) (spinupNonempty : ℕ → Bool) (params : List ℚ)
    (create : Bool) : Except PyErr (Option ℕ × List SetEntry) := do
  let c ← get_closest_parameter_set_dir cfg tsExists sets spinupNonempty params true
  let matched ← match c with
    | some i => do
        let e := (sets.get? i).getD ⟨none, false⟩
        let d ← get_parameters_diff params e
        if d > cfg.parametersMaxDiffSq then Except.ok none
        else Except.ok (some i)
    | none => Except.ok (none : Option ℕ)
  match matched with
  | some i => Except.ok (some i, sets)
  | none =>
      if create then
        let free := first_free (fun j => decide (j < sets.length)) 0 (sets.length + 1)
        Except.ok (some free, sets ++ [⟨some params, true⟩])
      else
        Except.ok (none, sets)

/-- One run of a spinup chain: the requested options persisted at creation
(eval.py lines 412-416) and the values its completed job reports
(`job.last_year`, `job.last_tolerance`).  The model's chains contain only
runs whose job options file is readable, so `get_last_run_dir`'s
skip-unreadable loop reduces to taking the final index. -/
structure RunRecord where
  requestedYears : ℚ
  requestedTolerance : ℚ
  lastYear : ℚ
  lastTolerance : ℚ
  deriving DecidableEq, Repr

/-- The external job system's outcome for a freshly created run: given the
run directory, the submitted (incremental) years and the tolerance target,
the `(last_year, last_tolerance)` its job eventually reports. -/
abbrev JobOracle := Path → ℚ → ℚ → ℚ × ℚ

/-- The world one parameter set's spinup-chain management sees: the job
outcome oracle, the contents of this set's parameters file, the time step
parsed from the time-step dirname, and — for the bootstrap branch — the
closest parameter set that already has spinup runs (`none`: no such set),
given as its parameter-set directory and its spinup chain. -/
structure SpinupWorld where
  oracle : JobOracle
  psParams : List ℚ
  timeStep : ℚ
  closest : Option (Path × List RunRecord)

def spinup_dirname : PathComp := PathComp.name "spinup"

/-- `job.last_year` view of one chain's run directories, rooted at `dir`. -/
def chainFs (dir : Path) (runs : List RunRecord) : RunFs := fun p =>
  if List.dropLast p = dir then
    match List.getLast? p with
    | some (PathComp.run j) => (runs.get? j).map RunRecord.lastYear
    | _ => none
  else none

/-- `Model.get_last_run_dir` on a chain of readable runs: the directory of
the final run, or `none` for an empty chain. -/
def lastRunDirOf (dir : Path) (runs : List RunRecord) : Option Path :=
  if runs.isEmpty then none else some (dir ++ [PathComp.run (runs.length - 1)])

/-- The pair `(get_total_years run, get_real_tolerance run)` of a chain's
last run, the values `is_run_matching_options` reads from it. -/
def runDataOf (runs : List RunRecord) : Option (ℚ × ℚ) :=
  match runs.getLast? with
  | none => none
  | some r => some ((runs.map RunRecord.lastYear).sum, r.lastTolerance)

/-- The run filesystem visible while managing one set's spinup chain: this
set's own chain plus (for bootstrap tracer input) the closest set's chain. -/
def spinupWorldFs (w : SpinupWorld) (spinupDir : Path) (runs : List RunRecord) :
    RunFs := fun p =>
  match chainFs spinupDir runs p with
  | some y => some y
  | none =>
      match w.closest with
      | some (cpsDir, cruns) => chainFs (cpsDir ++ [spinup_dirname]) cruns p
      | none => none

/-- `Model.get_spinup_run_dir` (eval.py lines 341-388) as a transformer of
one parameter set's spinup chain.  If the last run matches the options, it
is returned unchanged.  Otherwise the parameters and time step are read
back, an empty chain is optionally bootstrapped from the closest parameter
set's last run (joining `None` when no such set exists raises `TypeError`,
line 370), the prior run is waited for (`wait_seconds_spinup = 120`), and
then: combination `or` creates one new run via `make_run` with the prior
run as tracer input; combination `and` recurses — first an `or` run for the
target years, then an `or` run for the hard maximum years with the target
tolerance.  `depth` is fuel for that recursion (the recursive calls pass
`or`, so depth 2 covers every terminating execution); the resolved `years`
value is coerced to a number at its first arithmetic use inside `make_run`
(`pyNum`), where a non-number would raise in the source.  If the combination
were neither `or` nor `and`, the following `run_dir` read would raise
`NameError`; validation makes that branch unreachable.  Returns the new
chain, the resulting run directory and the emitted events. -/
def get_spinup_run_dir (cfg : ModelConfig) (w : SpinupWorld) (psDir : Path)
    (sfc : Bool) :
    List RunRecord → Option SpinupOptions → ℕ →
      Except PyErr (List RunRecord × Path × List Event)
  | _, _, 0 => Except.error PyErr.fuel
  | runs, opts, depth + 1 => do
      let spinupDir := psDir ++ [spinup_dirname]
      let lastRunDir := lastRunDirOf spinupDir runs
      let (m, ws) ← is_run_matching_options cfg (runDataOf runs) opts
      let evW := ws.map Event.warn
      if m then
        match lastRunDir with
        | some p => Except.ok (runs, p, evW)
        | none => Except.error PyErr.valueError
      else do
        let parameters := w.psParams
        let timeStep := w.timeStep
        let tracer ←
          if lastRunDir.isNone && sfc then
            match w.closest with
            | some (cpsDir, cruns) =>
                Except.ok (lastRunDirOf (cpsDir ++ [spinup_dirname]) cruns)
            | none => Except.error PyErr.typeError
          else
            Except.ok lastRunDir
        let evWait := match tracer with
          | some p => wait_until_job_finished p (some 120)
          | none => []
        let ((yv, tv, cv), ws2) ← all_spinup_options cfg opts
        let evW2 := ws2.map Event.warn
        if cv = some (SpinupVal.str "or") then do
          let years ← pyNum yv
          let tolerance ← pyNum tv
          let fs := spinupWorldFs w spinupDir runs
          let (runDir, submitted, evRun) ←
            make_run cfg fs runs.length spinupDir parameters years tolerance
              timeStep tracer (some 120)
          let (ly, lt) := w.oracle runDir submitted tolerance
          Except.ok (runs ++ [⟨years, tolerance, ly, lt⟩], runDir,
            evW ++ evWait ++ evW2 ++ evRun)
        else if cv = some (SpinupVal.str "and") then do
          let opts1 : SpinupOptions :=
            ⟨yv, some (SpinupVal.num 0), some (SpinupVal.str "or")⟩
          let (runs1, _, ev1) ←
            get_spinup_run_dir cfg w psDir sfc runs (some opts1) depth
          let opts2 : SpinupOptions :=
            ⟨some (SpinupVal.num cfg.spinupMaxYears), tv, some (SpinupVal.str "or")⟩
          let (runs2, p2, ev2) ←
            get_spinup_run_dir cfg w psDir sfc runs1 (some opts2) depth
          Except.ok (runs2, p2, evW ++ evWait ++ evW2 ++ ev1 ++ ev2)
        else
          Except.error PyErr.nameError

/-- `METOS_TRACER_DIM`: the source's `assert len(f) == 2` / `assert
len(df) == 2` (eval.py lines 803, 815, 955, 964) fix the tracer dimension
at 2. -/
def METOS_TRACER_DIM : ℕ := 2

/-- The world the derivative orchestrator sees: the spinup-chain world of
the resolved parameter set, the parameter-set directory that
`get_parameter_set_dir` resolves to (the resolution itself is embedded
separately, see `get_parameter_set_dir`; within one `_df` call it is a
fixed directory), and the external trajectory loader's output per run
directory and tracer (`load_trajectory_function` composed with the
trajectory job, an external collaborator). -/
structure DfWorld where
  spinup : SpinupWorld
  psDir : Path
  traj : Path → Fin 2 → List Val

/-- The orchestrator-visible mutable filesystem state: the spinup chain of
the parameter set and, per (parameter index, step sign), the run chain of
that partial-derivative directory. -/
structure DfState where
  spinupRuns : List RunRecord
  partialRuns : ℕ → ℤ → List RunRecord

def updatePartial (f : ℕ → ℤ → List RunRecord) (i : ℕ) (s : ℤ)
    (v : List RunRecord) : ℕ → ℤ → List RunRecord :=
  fun i' s' => if i' = i ∧ s' = s then v else f i' s'

def derivative_dirname : PathComp := PathComp.name "derivative"

/-- `MODEL_PARTIAL_DERIVATIVE_DIRNAME.format(parameter_index, h_factor)`
under the derivative directory (eval.py lines 902-904). -/
def partialDerivativeDir (psDir : Path) (i : ℕ) (s : ℤ) : Path :=
  psDir ++ [derivative_dirname, PathComp.part i s]

/-- `job.last_year` view of the partial-derivative run directories. -/
def partialFs (psDir : Path) (pr : ℕ → ℤ → List RunRecord) : RunFs := fun p =>
  match List.getLast? p with
  | some (PathComp.run j) =>
      match List.getLast? (List.dropLast p) with
      | some (PathComp.part i s) =>
          if List.dropLast (List.dropLast p) = psDir ++ [derivative_dirname] then
            ((pr i s).get? j).map RunRecord.lastYear
          else none
      | _ => none
  | _ => none

/-- All run directories the orchestrator can read `last_year` from. -/
def dfFs (w : DfWorld) (st : DfState) : RunFs := fun p =>
  match spinupWorldFs w.spinup (w.psDir ++ [spinup_dirname]) st.spinupRuns p with
  | some y => some y
  | none => partialFs w.psDir st.partialRuns p

/-- The temporary directory `Model._get_trajectory` creates under a run
directory for the 1-year trajectory job (eval.py lines 729-736; the
tempfile naming is abstracted to a fixed component). -/
def trajectory_tmp (runDir : Path) : Path :=
  runDir ++ [PathComp.name "trajectory_tmp"]

def zerosVec (n : ℕ) : List Val := List.replicate n (Val.num 0)

def zerosMat (rows cols : ℕ) : List (List Val) :=
  List.replicate rows (zerosVec cols)

/-- `a + c * b` elementwise; numpy raises on a shape mismatch. -/
def vecAddScaled (a : List Val) (c : ℚ) (b : List Val) :
    Except PyErr (List Val) :=
  if a.length = b.length then
    Except.ok ((a.zip b).map fun pr => Val.add pr.1 (Val.scale c pr.2))
  else Except.error PyErr.valueError

def vecSub (a b : List Val) : Except PyErr (List Val) :=
  if a.length = b.length then
    Except.ok ((a.zip b).map fun pr => Val.sub pr.1 pr.2)
  else Except.error PyErr.valueError

def vecDivQ (a : List Val) (c : ℚ) : List Val := a.map (fun v => Val.divQ v c)

def matModifyRow (m : List (List Val)) (i : ℕ)
    (f : List Val → Except PyErr (List Val)) :
    Except PyErr (List (List Val)) :=
  match m.get? i with
  | none => Except.error PyErr.indexError
  | some row => do
      let r ← f row
      Except.ok (m.set i r)

/-- The two per-tracer derivative matrices (tracer dimension 2). -/
abbrev Mat2 := List (List Val) × List (List Val)

def anyNanMat (m : List (List Val)) : Bool := m.any (fun row => row.any Val.isnan)

/-- One iteration of `_df`'s submission loop (eval.py lines 870-922), for
parameter index `i` and one perturbation factor: compute the bound-aware
step (`derivative_step`), perturb the parameter, locate the partial
derivative run directory keyed by the realized step's sign, and — unless
its last run already matches the reduced derivative spinup policy
`{years: MODEL_DERIVATIVE_SPINUP_YEARS, tolerance: 0, combination: or}` —
purge the directory and create a fresh run with the base spinup run as
tracer input, submitted with `wait_seconds=False` (no waiting; the
nodes-setup lookup of lines 911-917 is external job configuration with no
observable event).  Returns the updated state, the run directory with its
step `h`, and the events. -/
def df_submit_step (cfg : ModelConfig) (w : DfWorld)
    (spinupRunDir : Option Path) (accuracyOrder : ℕ) (params : List ℚ)
    (i : ℕ) (factor : ℤ) (st : DfState) :
    Except PyErr (DfState × (Path × ℚ) × List Event) := do
  let lb ← match cfg.parametersLowerBound.get? i with
    | some q => Except.ok q
    | none => Except.error PyErr.indexError
  let ub ← match cfg.parametersUpperBound.get? i with
    | some q => Except.ok q
    | none => Except.error PyErr.indexError
  let p ← match params.get? i with
    | some q => Except.ok q
    | none => Except.error PyErr.indexError
  let (h, pd) := derivative_step lb ub p factor accuracyOrder
  let paramsDer := params.set i pd
  let sign : ℤ := if 0 < h then 1 else if h < 0 then -1 else 0
  let pdir := partialDerivativeDir w.psDir i sign
  let chain := st.partialRuns i sign
  let runDirOpt := lastRunDirOf pdir chain
  let reduced : SpinupOptions :=
    ⟨some (SpinupVal.num cfg.derivativeSpinupYears), some (SpinupVal.num 0),
      some (SpinupVal.str "or")⟩
  let (m, ws) ← is_run_matching_options cfg (runDataOf chain) (some reduced)
  let evW := ws.map Event.warn
  if m then
    match runDirOpt with
    | some rd => Except.ok (st, (rd, h), evW)
    | none => Except.error PyErr.valueError
  else do
    let st1 : DfState := ⟨st.spinupRuns, updatePartial st.partialRuns i sign []⟩
    let fs := dfFs w st1
    let (runDir, submitted, evRun) ←
      make_run cfg fs 0 pdir paramsDer cfg.derivativeSpinupYears 0
        w.spinup.timeStep spinupRunDir none
    let (ly, lt) := w.spinup.oracle runDir submitted 0
    let st2 : DfState :=
      ⟨st1.spinupRuns,
        updatePartial st1.partialRuns i sign
          [⟨cfg.derivativeSpinupYears, 0, ly, lt⟩]⟩
    Except.ok (st2, (runDir, h), evW ++ evRun)

/-- The inner (per-factor) part of `_df`'s submission loop. -/
def df_submit_row (cfg : ModelConfig) (w : DfWorld)
    (spinupRunDir : Option Path) (accuracyOrder : ℕ) (params : List ℚ)
    (i : ℕ) :
    List ℤ → DfState → Except PyErr (DfState × List (Path × ℚ) × List Event)
  | [], st => Except.ok (st, [], [])
  | factor :: rest, st => do
      let (st1, entry, ev1) ←
        df_submit_step cfg w spinupRunDir accuracyOrder params i factor st
      let (st2, entries, ev2) ←
        df_submit_row cfg w spinupRunDir accuracyOrder params i rest st1
      Except.ok (st2, entry :: entries, ev1 ++ ev2)

/-- The outer (per-parameter) part of `_df`'s submission loop. -/
def df_submit_all (cfg : ModelConfig) (w : DfWorld)
    (spinupRunDir : Option Path) (accuracyOrder : ℕ) (params : List ℚ)
    (hFactors : List ℤ) :
    List ℕ → DfState →
      Except PyErr (DfState × List (List (Path × ℚ)) × List Event)
  | [], st => Except.ok (st, [], [])
  | i :: rest, st => do
      let (st1, row, ev1) ←
        df_submit_row cfg w spinupRunDir accuracyOrder params i hFactors st
      let (st2, rows, ev2) ←
        df_submit_all cfg w spinupRunDir accuracyOrder params hFactors rest st1
      Except.ok (st2, row :: rows, ev1 ++ ev2)

/-- One iteration of `_df`'s wait-and-accumulate loop (eval.py lines
926-937): block on the partial derivative run (`wait_seconds_derivative =
60`), compute its trajectory (a 1-year trajectory job in a temporary
directory, `wait_seconds_trajectory = 10`), initialize the derivative
matrices on first use, and accumulate `(-1)^h_factor_index` times the
trajectory into row `i`. -/
def df_wait_step (cfg : ModelConfig) (w : DfWorld) (params : List ℚ)
    (plen : ℕ) (i fIdx : ℕ) (runDir : Path) (df : Option Mat2) :
    Except PyErr (Option Mat2 × List Event) := do
  let evWait := wait_until_job_finished runDir (some 60)
  let evTraj ← run_job cfg params (trajectory_tmp runDir) 1 0
    w.spinup.timeStep (some 10)
  let t0 := w.traj runDir 0
  let t1 := w.traj runDir 1
  let df1 := match df with
    | none => (zerosMat plen t0.length, zerosMat plen t1.length)
    | some m => m
  let c : ℚ := (-1) ^ fIdx
  let m0 ← matModifyRow df1.1 i (fun row => vecAddScaled row c t0)
  let m1 ← matModifyRow df1.2 i (fun row => vecAddScaled row c t1)
  Except.ok (some (m0, m1), evWait ++ evTraj)

/-- The per-parameter finalization of `_df` (eval.py lines 940-945): with
accuracy order 1, subtract the unperturbed trajectory `f` and divide by the
single signed step; otherwise divide by the sum of the absolute step
magnitudes.  (`Val.divQ _ 0` is modelled as NaN; the source's float
division yields inf/NaN there, and no theorem below evaluates a division by
a zero step.) -/
def df_finalize_row (accuracyOrder : ℕ) (fOpt : Option (List Val × List Val))
    (hRow : List ℚ) (i : ℕ) (df : Mat2) : Except PyErr Mat2 := do
  if accuracyOrder = 1 then do
    let f ← match fOpt with
      | some f => Except.ok f
      | none => Except.error PyErr.nameError
    let h0 ← match hRow.head? with
      | some h => Except.ok h
      | none => Except.error PyErr.indexError
    let m0 ← matModifyRow df.1 i (fun row => do
      let r ← vecSub row f.1
      Except.ok (vecDivQ r h0))
    let m1 ← matModifyRow df.2 i (fun row => do
      let r ← vecSub row f.2
      Except.ok (vecDivQ r h0))
    Except.ok (m0, m1)
  else do
    let s := (hRow.map (fun q => |q|)).sum
    let m0 ← matModifyRow df.1 i (fun row => Except.ok (vecDivQ row s))
    let m1 ← matModifyRow df.2 i (fun row => Except.ok (vecDivQ row s))
    Except.ok (m0, m1)

/-- The inner (per-factor) part of `_df`'s wait loop, `fIdx` counting the
factor position. -/
def df_wait_row (cfg : ModelConfig) (w : DfWorld) (params : List ℚ)
    (plen i : ℕ) :
    ℕ → List (Path × ℚ) → Option Mat2 →
      Except PyErr (Option Mat2 × List Event)
  | _, [], df => Except.ok (df, [])
  | fIdx, entry :: rest, df => do
      let (df1, ev1) ← df_wait_step cfg w params plen i fIdx entry.1 df
      let (df2, ev2) ← df_wait_row cfg w params plen i (fIdx + 1) rest df1
      Except.ok (df2, ev1 ++ ev2)

/-- The outer (per-parameter) part of `_df`'s wait loop, including the
per-parameter finalization. -/
def df_wait_all (cfg : ModelConfig) (w : DfWorld) (params : List ℚ)
    (plen accuracyOrder : ℕ) (fOpt : Option (List Val × List Val)) :
    ℕ → List (List (Path × ℚ)) → Option Mat2 →
      Except PyErr (Option Mat2 × List Event)
  | _, [], df => Except.ok (df, [])
  | i, row :: rest, df => do
      let (df1, ev1) ← df_wait_row cfg w params plen i 0 row df
      let df2 ← match df1 with
        | none => Except.ok (none : Option Mat2)
        | some m => do
            let m' ← df_finalize_row accuracyOrder fOpt (row.map Prod.snd) i m
            Except.ok (some m')
      let (df3, ev2) ← df_wait_all cfg w params plen accuracyOrder fOpt
        (i + 1) rest df2
      Except.ok (df3, ev1 ++ ev2)

/-- `Model._df` (eval.py lines 822-947): choose the perturbation factors
from the accuracy order, resolve the spinup options, obtain a base spinup
run for the policy reduced by the derivative spinup margin, with accuracy
order 1 possibly step back one run and obtain the unperturbed trajectory
`f`; then run the submission loop over all (parameter, factor) pairs —
dispatching every missing partial derivative run without waiting — and only
then the wait-and-accumulate loop.  `df = none` embeds the source's
`[None, None]` (no parameter ever initialized the matrices). -/
def _df (cfg : ModelConfig) (w : DfWorld) (st : DfState) (params : List ℚ)
    (opts : Option SpinupOptions) (accuracyOrder : ℕ) (depth : ℕ) :
    Except PyErr (DfState × Option Mat2 × List Event) := do
  let hFactors : List ℤ ←
    if accuracyOrder = 1 then Except.ok [1]
    else if accuracyOrder = 2 then Except.ok [1, -1]
    else Except.error PyErr.valueError
  let psDir := w.psDir
  let ((yv, tv, cv), ws) ← all_spinup_options cfg opts
  let evW := ws.map Event.warn
  let years ← pyNum yv
  let reducedOpts : SpinupOptions :=
    ⟨some (SpinupVal.num (years - cfg.derivativeSpinupYears)), tv, cv⟩
  let (runs1, spinupRunDir0, evSp) ←
    get_spinup_run_dir cfg w.spinup psDir cfg.startFromClosest st.spinupRuns
      (some reducedOpts) depth
  let st1 : DfState := ⟨runs1, st.partialRuns⟩
  let spinupRunYears0 ← get_total_years (dfFs w st1) (some spinupRunDir0)
    (run_index_fuel spinupRunDir0)
  let (st2, spinupRunDir, _spinupRunYears, fOpt, evF) ←
    if accuracyOrder = 1 then do
      let prev ← get_previous_run_dir spinupRunDir0
      let prevFuel := match prev with
        | some pp => run_index_fuel pp
        | none => 1
      let prevYears ← get_total_years (dfFs w st1) prev prevFuel
      let (sd, sy) :=
        if prevYears = spinupRunYears0 - cfg.derivativeSpinupYears then
          (prev, prevYears)
        else
          (some spinupRunDir0, spinupRunYears0)
      let fOpts : SpinupOptions :=
        ⟨some (SpinupVal.num (sy + cfg.derivativeSpinupYears)),
          some (SpinupVal.num 0), some (SpinupVal.str "or")⟩
      let (runsF, baseDir, evF1) ←
        get_spinup_run_dir cfg w.spinup psDir cfg.startFromClosest
          st1.spinupRuns (some fOpts) depth
      let evF2 ← run_job cfg params (trajectory_tmp baseDir) 1 0
        w.spinup.timeStep (some 10)
      Except.ok ((⟨runsF, st1.partialRuns⟩ : DfState), sd, sy,
        some (w.traj baseDir 0, w.traj baseDir 1), evF1 ++ evF2)
    else
      Except.ok (st1, some spinupRunDir0, spinupRunYears0,
        (none : Option (List Val × List Val)), ([] : List Event))
  let (st3, rows, ev1) ←
    df_submit_all cfg w spinupRunDir accuracyOrder params hFactors
      (List.range params.length) st2
  let (dfOpt, ev2) ←
    df_wait_all cfg w params params.length accuracyOrder fOpt 0 rows none
  Except.ok (st3, dfOpt, evW ++ evSp ++ evF ++ ev1 ++ ev2)

/-- `Model.df_all` (eval.py lines 950-956): compute `_df` with the
all-values trajectory loader and assert only that the tracer dimension is 2
(which the embedding's pair representation makes intrinsic) — the returned
tensor is **not** checked for NaN values. -/
def df_all (cfg : ModelConfig) (w : DfWorld) (st : DfState) (params : List ℚ)
    (opts : Option SpinupOptions) (accuracyOrder : ℕ) (depth : ℕ) :
    Except PyErr (DfState × Option Mat2 × List Event) :=
  _df cfg w st params opts accuracyOrder depth

/-- `Model.df_points` (eval.py lines 959-966): compute `_df` with the
at-points trajectory loader, then assert the tracer dimension is 2 and that
neither tracer's derivative tensor contains a NaN entry (`np.isnan` applied
to the source's `None` placeholder — the no-parameters case — raises
`TypeError`). -/
def df_points (cfg : ModelConfig) (w : DfWorld) (st : DfState)
    (params : List ℚ) (opts : Option SpinupOptions) (accuracyOrder : ℕ)
    (depth : ℕ) : Except PyErr (DfState × Mat2 × List Event) := do
  let (st', dfOpt, ev) ← _df cfg w st params opts accuracyOrder depth
  match dfOpt with
  | none => Except.error PyErr.typeError
  | some df =>
      if anyNanMat df.1 || anyNanMat df.2 then
        Except.error PyErr.assertionError
      else
        Except.ok (st', df, ev)

/-! ## Concrete instances used by witnesses -/

/-- A concrete model configuration (two parameters, bounds `[0,-1]..[10,1]`,
the constructor's default spinup options). -/
def exampleConfig : ModelConfig :=
  { parametersLowerBound := [0, -1]
    parametersUpperBound := [10, 1]
    defaultSpinupOptions :=
      ⟨some (SpinupVal.num 10000), some (SpinupVal.num 0),
        some (SpinupVal.str "or")⟩
    spinupMaxYears := 10000
    derivativeSpinupYears := 1
    parametersMaxDiffSq := 1
    startFromClosest := false
    timeStep := 1 }

/-! ## Theorems -/

/-- C10: a spinup-options lookup whose supplied `combination` value is
neither `and` nor `or` (a missing key resolving to `None` included) does
not raise: it warns and returns the `combination` value of the model's
default spinup options. -/
theorem c10_invalid_combination_falls_back (cfg : ModelConfig)
    (opts : SpinupOptions) (fuel : ℕ)
    (hdef : cfg.defaultSpinupOptions.combination = some (SpinupVal.str "and") ∨
      cfg.defaultSpinupOptions.combination = some (SpinupVal.str "or"))
    (hbad : ¬ (opts.combination = some (SpinupVal.str "and") ∨
      opts.combination = some (SpinupVal.str "or")))
    (hfuel : 2 ≤ fuel) :
    spinup_option cfg OptKey.combination (some opts) fuel =
      Except.ok (cfg.defaultSpinupOptions.combination,
        [Warning.invalidCombination]) := by
  obtain ⟨m, rfl⟩ : ∃ m, fuel = m + 2 := ⟨fuel - 2, by omega⟩
  rcases hdef with h | h <;>
    simp [spinup_option, SpinupOptions.lookup, h, hbad]

/-- Witness for C10 at a concrete config and an invalid combination value. -/
theorem c10_witness :
    spinup_option exampleConfig OptKey.combination
        (some ⟨none, none, some (SpinupVal.str "bogus")⟩) 2 =
      Except.ok (some (SpinupVal.str "or"), [Warning.invalidCombination]) := by
  have h := c10_invalid_combination_falls_back exampleConfig
    ⟨none, none, some (SpinupVal.str "bogus")⟩ 2 (Or.inr rfl) (by decide)
    (by norm_num)
  simpa [exampleConfig] using h

lemma all_spinup_options_concrete (cfg : ModelConfig)
    (yv tv : Option SpinupVal) (c : String)
    (hc : c = "and" ∨ c = "or") :
    all_spinup_options cfg (some ⟨yv, tv, some (SpinupVal.str c)⟩) =
      Except.ok ((yv, tv, some (SpinupVal.str c)), []) := by
  rcases hc with rfl | rfl <;>
    simp [all_spinup_options, spinup_option, SpinupOptions.lookup,
      Except.bind, bind]

lemma irmo_or (cfg : ModelConfig) (Y R y t : ℚ) :
    is_run_matching_options cfg (some (Y, R))
        (some ⟨some (SpinupVal.num y), some (SpinupVal.num t),
          some (SpinupVal.str "or")⟩) =
      Except.ok (decide (Y ≥ y ∨ R ≤ t), []) := by
  simp only [is_run_matching_options, all_spinup_options, spinup_option,
    SpinupOptions.lookup, pyGEval, pyLEval, pyGTval, bind, Except.bind]
  by_cases hY : Y ≥ y <;> by_cases hR : R ≤ t <;> simp [hY, hR]

lemma irmo_and (cfg : ModelConfig) (Y R y t : ℚ) :
    is_run_matching_options cfg (some (Y, R))
        (some ⟨some (SpinupVal.num y), some (SpinupVal.num t),
          some (SpinupVal.str "and")⟩) =
      Except.ok (decide ((Y ≥ y ∧ R ≤ t) ∨ Y ≥ cfg.spinupMaxYears),
        if ((Y ≥ y ∧ R ≤ t) ∨ Y ≥ cfg.spinupMaxYears) ∧ R > t then
          [Warning.ceilingToleranceWaived]
        else []) := by
  simp only [is_run_matching_options, all_spinup_options, spinup_option,
    SpinupOptions.lookup, pyGEval, pyLEval, pyGTval, bind, Except.bind]
  by_cases hY : Y ≥ y <;> by_cases hR : R ≤ t <;>
    by_cases hM : Y ≥ cfg.spinupMaxYears <;> simp [hY, hR, hM]

lemma irmo_none (cfg : ModelConfig) (yv tv : Option SpinupVal) (c : String)
    (hc : c = "and" ∨ c = "or") :
    is_run_matching_options cfg none
        (some ⟨yv, tv, some (SpinupVal.str c)⟩) = Except.ok (false, []) := by
  rcases hc with rfl | rfl <;>
    simp [is_run_matching_options, all_spinup_options, spinup_option,
      SpinupOptions.lookup, Except.bind, bind]

/-- C1: `is_run_matching_options` on a run with accumulated years `Y` and
achieved tolerance `R`: with combination `or` it matches iff `Y ≥ years` or
`R ≤ tolerance`; with combination `and` it matches iff both hold or `Y` has
reached the hard maximum spinup-years ceiling, warning exactly when it
matches with `R` above the tolerance (the ceiling case); a null run
directory never matches. -/
theorem c1_is_run_matching_options_semantics (cfg : ModelConfig)
    (Y R y t : ℚ) :
    (is_run_matching_options cfg (some (Y, R))
        (some ⟨some (SpinupVal.num y), some (SpinupVal.num t),
          some (SpinupVal.str "or")⟩) =
      Except.ok (decide (Y ≥ y ∨ R ≤ t), [])) ∧
    (is_run_matching_options cfg (some (Y, R))
        (some ⟨some (SpinupVal.num y), some (SpinupVal.num t),
          some (SpinupVal.str "and")⟩) =
      Except.ok (decide ((Y ≥ y ∧ R ≤ t) ∨ Y ≥ cfg.spinupMaxYears),
        if ((Y ≥ y ∧ R ≤ t) ∨ Y ≥ cfg.spinupMaxYears) ∧ R > t then
          [Warning.ceilingToleranceWaived]
        else [])) ∧
    (is_run_matching_options cfg none
        (some ⟨some (SpinupVal.num y), some (SpinupVal.num t),
          some (SpinupVal.str "and")⟩) = Except.ok (false, [])) ∧
    (is_run_matching_options cfg none
        (some ⟨some (SpinupVal.num y), some (SpinupVal.num t),
          some (SpinupVal.str "or")⟩) = Except.ok (false, [])) := by
  refine ⟨?_, ?_, ?_, ?_⟩ <;>
    · simp only [is_run_matching_options, all_spinup_options, spinup_option,
        SpinupOptions.lookup, pyGEval, pyLEval, pyGTval, bind, Except.bind]
      by_cases hY : Y ≥ y <;> by_cases hR : R ≤ t <;>
        by_cases hM : Y ≥ cfg.spinupMaxYears <;>
        simp [hY, hR, hM]

/-- C3: the derivative step starts as `h = max(|p|, 0.1) * 1e-7` signed by
the factor; with accuracy order 2 a bound-violating perturbation is clamped
to the bound itself while order 1 flips the step's sign; the recorded `h`
is the realized difference (perturbed minus base); in particular a
parameter exactly at its upper bound with order 2 yields a positive step of
size 0 and a full-magnitude negative step. -/
theorem c3_derivative_step_bounds (lb ub p : ℚ) (factor : ℤ)
    (hlb : lb ≤ ub) :
    (p + (factor : ℚ) * (max |p| (1 / 10) * (1 / 10 ^ 7)) > ub →
      derivative_step lb ub p factor 2 = (ub - p, ub)) ∧
    (p + (factor : ℚ) * (max |p| (1 / 10) * (1 / 10 ^ 7)) < lb →
      derivative_step lb ub p factor 2 = (lb - p, lb)) ∧
    (lb ≤ p + (factor : ℚ) * (max |p| (1 / 10) * (1 / 10 ^ 7)) →
      p + (factor : ℚ) * (max |p| (1 / 10) * (1 / 10 ^ 7)) ≤ ub →
      derivative_step lb ub p factor 2 =
        ((factor : ℚ) * (max |p| (1 / 10) * (1 / 10 ^ 7)),
          p + (factor : ℚ) * (max |p| (1 / 10) * (1 / 10 ^ 7)))) ∧
    ((p + (factor : ℚ) * (max |p| (1 / 10) * (1 / 10 ^ 7)) < lb ∨
      p + (factor : ℚ) * (max |p| (1 / 10) * (1 / 10 ^ 7)) > ub) →
      derivative_step lb ub p factor 1 =
        (-((factor : ℚ) * (max |p| (1 / 10) * (1 / 10 ^ 7))),
          p + -((factor : ℚ) * (max |p| (1 / 10) * (1 / 10 ^ 7))))) ∧
    (lb ≤ p + (factor : ℚ) * (max |p| (1 / 10) * (1 / 10 ^ 7)) →
      p + (factor : ℚ) * (max |p| (1 / 10) * (1 / 10 ^ 7)) ≤ ub →
      derivative_step lb ub p factor 1 =
        ((factor : ℚ) * (max |p| (1 / 10) * (1 / 10 ^ 7)),
          p + (factor : ℚ) * (max |p| (1 / 10) * (1 / 10 ^ 7)))) ∧
    (p = ub → derivative_step lb ub p 1 2 = (0, ub)) ∧
    (p = ub → lb ≤ ub - max |p| (1 / 10) * (1 / 10 ^ 7) →
      derivative_step lb ub p (-1) 2 =
        (-(max |p| (1 / 10) * (1 / 10 ^ 7)),
          ub - max |p| (1 / 10) * (1 / 10 ^ 7))) := by
  simp only [derivative_step, Bool.or_eq_true, decide_eq_true_eq]
  set e : ℚ := max |p| (1 / 10) * (1 / 10 ^ 7) with he
  have hepos : (0 : ℚ) < e := by
    rw [he]
    have h1 : (0 : ℚ) < max |p| (1 / 10) :=
      lt_of_lt_of_le (by norm_num) (le_max_right _ _)
    positivity
  have hne : ¬ ((2 : ℕ) = 1) := by norm_num
  refine ⟨fun h => ?_, fun h => ?_, fun h1 h2 => ?_, fun h => ?_,
    fun h1 h2 => ?_, fun h => ?_, fun h1 h2 => ?_⟩
  · rw [if_neg hne, if_neg (show ¬ (p + (factor : ℚ) * e < lb) by
      intro hc; linarith), if_pos h]
  · rw [if_neg hne, if_pos h]
  · rw [if_neg hne, if_neg (not_lt.mpr h1), if_neg (not_lt.mpr h2)]
    simp only [Prod.mk.injEq]
    exact ⟨by ring, by trivial⟩
  · rw [if_pos trivial, if_pos h]
    simp only [Prod.mk.injEq]
    exact ⟨by ring, by trivial⟩
  · rw [if_pos trivial, if_neg (not_or.mpr ⟨not_lt.mpr h1, not_lt.mpr h2⟩)]
    simp only [Prod.mk.injEq]
    exact ⟨by ring, by trivial⟩
  · subst h
    rw [if_neg hne]
    simp only [Int.cast_one, one_mul]
    split_ifs with hA hB
    · exfalso; linarith
    · simp only [Prod.mk.injEq]
      exact ⟨by ring, by trivial⟩
    · exfalso; exact hB (by linarith)
  · subst h1
    rw [if_neg hne]
    simp only [Int.cast_neg, Int.cast_one, neg_mul, one_mul]
    split_ifs with hA hB
    · exfalso; linarith
    · exfalso; linarith
    · simp only [Prod.mk.injEq]
      exact ⟨by ring, by ring⟩

/-- Witness for C3: a parameter at its upper bound 10 (lower bound 0) with
accuracy order 2 gets a positive step of size 0 and a full-magnitude
negative step `max(10, 0.1) * 1e-7 = 1e-6`. -/
theorem c3_witness :
    derivative_step 0 10 10 1 2 = (0, 10) ∧
    derivative_step 0 10 10 (-1) 2 = (-(1 / 1000000), 10 - 1 / 1000000) := by
  have h := c3_derivative_step_bounds 0 10 10 1 (by norm_num)
  have h' := c3_derivative_step_bounds 0 10 10 (-1) (by norm_num)
  have h2 := h'.2.2.2.2.2.2 rfl (by norm_num)
  refine ⟨h.2.2.2.2.2.1 rfl, ?_⟩
  rw [h2]
  norm_num

lemma chainFs_at (dir : Path) (runs : List RunRecord) (k : ℕ) :
    chainFs dir runs (dir ++ [PathComp.run k]) =
      (runs.get? k).map RunRecord.lastYear := by
  simp [chainFs, List.dropLast_concat, List.getLast?_concat]

lemma prev_run_dir_concat (dir : Path) (k : ℕ) :
    get_previous_run_dir (dir ++ [PathComp.run k]) =
      Except.ok (if k = 0 then none else some (dir ++ [PathComp.run (k - 1)])) := by
  cases k with
  | zero =>
      simp [get_previous_run_dir, List.getLast?_concat, get_int_in_comp,
        Except.bind, bind]
  | succ k =>
      simp [get_previous_run_dir, List.getLast?_concat, get_int_in_comp,
        List.dropLast_concat, Except.bind, bind]

/-- C9: the total elapsed years of run `k` in a chain is the sum of its own
job's years and those of all runs at strictly smaller indices, reached by
stepping from index `k` to `k - 1`. -/
theorem c9_total_years_sums_chain (dir : Path) (runs : List RunRecord)
    (k : ℕ) (hk : k < runs.length) (fuel : ℕ) (hf : k + 1 ≤ fuel) :
    get_total_years (chainFs dir runs) (some (dir ++ [PathComp.run k])) fuel =
      Except.ok (((runs.take (k + 1)).map RunRecord.lastYear).sum) := by
  induction k generalizing fuel with
  | zero =>
      obtain ⟨m, rfl⟩ : ∃ m, fuel = m + 1 := ⟨fuel - 1, by omega⟩
      have hr : runs[0]? = some runs[0] := List.getElem?_eq_getElem hk
      have hlen : 0 < (List.map RunRecord.lastYear runs).length := by
        simpa using hk
      have htake : ((List.map RunRecord.lastYear runs).take 1).sum =
          runs[0].lastYear := by
        rw [List.sum_take_succ _ 0 hlen]
        simp
      simp [get_total_years, chainFs_at, hr, prev_run_dir_concat, htake,
        Except.bind, bind]
  | succ k ih =>
      obtain ⟨m, rfl⟩ : ∃ m, fuel = m + 1 := ⟨fuel - 1, by omega⟩
      have hr : runs[k + 1]? = some runs[k + 1] := List.getElem?_eq_getElem hk
      have hrest := ih (Nat.lt_of_succ_lt hk) m (by omega)
      have hlen : k + 1 < (List.map RunRecord.lastYear runs).length := by
        simpa using hk
      have htake : ((List.map RunRecord.lastYear runs).take (k + 1 + 1)).sum =
          ((List.map RunRecord.lastYear runs).take (k + 1)).sum +
            runs[k + 1].lastYear := by
        rw [List.sum_take_succ _ (k + 1) hlen]
        simp
      simp [get_total_years, chainFs_at, hr, prev_run_dir_concat, hrest,
        Except.bind, bind]
      linarith [htake]

/-- Witness for C9: a two-run chain (years 100 then 50); the second run's
total is 150. -/
theorem c9_witness :
    get_total_years
        (chainFs [PathComp.name "spinup"]
          [⟨100, 0, 100, 1⟩, ⟨200, 0, 50, 1 / 2⟩])
        (some ([PathComp.name "spinup"] ++ [PathComp.run 1])) 2 =
      Except.ok 150 := by
  have h := c9_total_years_sums_chain [PathComp.name "spinup"]
    [⟨100, 0, 100, 1⟩, ⟨200, 0, 50, 1 / 2⟩] 1 (by norm_num) 2 (by norm_num)
  rw [h]
  norm_num

/-- C6: the years `make_run` submits to the job are the target years minus
the tracer input run's accumulated total years exactly when the input run's
parent directory equals the new run's parent directory (a true chain
extension); for a cross-set input or no input run, the full target is
submitted. -/
theorem c6_make_run_incremental_years (cfg : ModelConfig) (fs : RunFs)
    (numRuns : ℕ) (outputPath : Path) (params : List ℚ)
    (years tolerance timeStep : ℚ) (tracer : Option Path) (ws : WaitSpec)
    (rd : Path) (sub : ℚ) (ev : List Event)
    (h : make_run cfg fs numRuns outputPath params years tolerance timeStep
        tracer ws = Except.ok (rd, sub, ev)) :
    (tracer = none → sub = years) ∧
    (∀ p, tracer = some p → outputPath = List.dropLast p →
      ∃ Y, get_total_years fs (some p) (run_index_fuel p) = Except.ok Y ∧
        sub = years - Y) ∧
    (∀ p, tracer = some p → outputPath ≠ List.dropLast p → sub = years) := by
  refine ⟨?_, ?_, ?_⟩
  · rintro rfl
    simp only [make_run, bind, Except.bind] at h
    cases hb : check_if_parameters_in_bounds cfg params with
    | error e => simp [hb] at h
    | ok u =>
        cases hrj : run_job cfg params (outputPath ++ [PathComp.run numRuns])
            years tolerance timeStep ws with
        | error e => simp [hb, hrj] at h
        | ok evs =>
            simp [hb, hrj] at h
            linarith [h.2.1]
  · rintro p rfl hp
    simp only [make_run, bind, Except.bind] at h
    rw [if_pos hp] at h
    cases hb : check_if_parameters_in_bounds cfg params with
    | error e => simp [hb] at h
    | ok u =>
        cases hty : get_total_years fs (some p) (run_index_fuel p) with
        | error e => simp [hb, hty] at h
        | ok Y =>
            refine ⟨Y, rfl, ?_⟩
            cases hrj : run_job cfg params (outputPath ++ [PathComp.run numRuns])
                (years - Y) tolerance timeStep ws with
            | error e => simp [hb, hty, hrj] at h
            | ok evs =>
                simp [hb, hty, hrj] at h
                linarith [h.2.1]
  · rintro p rfl hp
    simp only [make_run, bind, Except.bind] at h
    rw [if_neg hp] at h
    cases hb : check_if_parameters_in_bounds cfg params with
    | error e => simp [hb] at h
    | ok u =>
        cases hrj : run_job cfg params (outputPath ++ [PathComp.run numRuns])
            years tolerance timeStep ws with
        | error e => simp [hb, hrj] at h
        | ok evs =>
            simp [hb, hrj] at h
            linarith [h.2.1]

/-- Witness for C6: extending a one-run chain (100 accumulated years) in the
same parent directory towards 150 years submits 50 years. -/
theorem c6_witness :
    make_run exampleConfig
        (chainFs [PathComp.name "spinup"] [⟨100, 0, 100, 1⟩]) 1
        [PathComp.name "spinup"] [1, 0] 150 0 1
        (some [PathComp.name "spinup", PathComp.run 0]) none =
      Except.ok ([PathComp.name "spinup", PathComp.run 1], 50,
        [Event.submit [PathComp.name "spinup", PathComp.run 1] false]) ∧
    (50 : ℚ) = 150 - 100 := by
  have hmk : make_run exampleConfig
      (chainFs [PathComp.name "spinup"] [⟨100, 0, 100, 1⟩]) 1
      [PathComp.name "spinup"] [1, 0] 150 0 1
      (some [PathComp.name "spinup", PathComp.run 0]) none =
      Except.ok ([PathComp.name "spinup", PathComp.run 1], 50,
        [Event.submit [PathComp.name "spinup", PathComp.run 1] false]) := by
    norm_num [make_run, check_if_parameters_in_bounds, exampleConfig, run_job,
      wait_until_job_finished, WaitSpec.truthy, get_total_years,
      run_index_fuel, chainFs, get_previous_run_dir, get_int_in_comp,
      Except.bind, bind, pure]
  obtain ⟨Y, hY, hsub⟩ :=
    (c6_make_run_incremental_years exampleConfig
      (chainFs [PathComp.name "spinup"] [⟨100, 0, 100, 1⟩]) 1
      [PathComp.name "spinup"] [1, 0] 150 0 1
      (some [PathComp.name "spinup", PathComp.run 0]) none
      [PathComp.name "spinup", PathComp.run 1] 50
      [Event.submit [PathComp.name "spinup", PathComp.run 1] false]
      hmk).2.1 [PathComp.name "spinup", PathComp.run 0] rfl rfl
  have hgt : get_total_years
      (chainFs [PathComp.name "spinup"] [⟨100, 0, 100, 1⟩])
      (some [PathComp.name "spinup", PathComp.run 0]) 1 = Except.ok 100 := by
    norm_num [get_total_years, chainFs, get_previous_run_dir, get_int_in_comp,
      Except.bind, bind, pure]
  have hYv : Y = 100 := by
    have := hY.symm.trans hgt
    exact (Except.ok.injEq _ _).mp this
  exact ⟨hmk, by rw [← hYv]; exact hsub⟩

/-- C8 (code bug): a candidate whose parameters file is unreadable makes the
closest-parameter-set scan raise `NameError` instead of warning and
continuing — the `except` handler at eval.py line 264 formats its warning
with the unbound variable `current_parameters_file`.  The spec-intended
behaviour (`closest_scan_intended`) skips the candidate with a warning and
still finds the matching second candidate. -/
theorem c8_unreadable_candidate_aborts_scan :
    get_closest_parameter_set_dir exampleConfig true
        [⟨none, false⟩, ⟨some [0, 0], true⟩] (fun _ => true) [0, 0] true =
      Except.error PyErr.nameError ∧
    closest_scan_intended [0, 0] (fun _ => true) true
        (List.enum [⟨none, false⟩, ⟨some [0, 0], true⟩]) none none =
      Except.ok (some 1, [Warning.unreadableParameters]) := by
  constructor
  · norm_num [get_closest_parameter_set_dir, check_if_parameters_in_bounds,
      exampleConfig, closest_scan, get_parameters_diff, diffGtZero, diffLt,
      List.enum, List.enumFrom, Except.bind, bind, pure]
  · norm_num [closest_scan_intended, get_parameters_diff, diffGtZero, diffLt,
      List.enum, List.enumFrom, Except.bind, bind, pure]

/-- A parameter-set entry whose parameters file is readable and matches the
query vector's dimension. -/
def Readable (params : List ℚ) (e : SetEntry) : Prop :=
  ∃ v, e.stored = some v ∧ v.length = params.length

/-- The squared distance `get_parameters_diff` computes on a readable entry
(0 on an unreadable one, where the source raises instead). -/
def distSqVal (params : List ℚ) (e : SetEntry) : ℚ :=
  match e.stored with
  | some v => ((params.zip v).map (fun pr => (pr.1 - pr.2) ^ 2)).sum
  | none => 0

lemma distSqVal_nonneg (params : List ℚ) (e : SetEntry) :
    0 ≤ distSqVal params e := by
  rcases he : e.stored with _ | v <;> simp [distSqVal, he]
  apply List.sum_nonneg
  intro x hx
  obtain ⟨pr, _, rfl⟩ := List.mem_map.mp hx
  positivity

lemma get_parameters_diff_readable (params : List ℚ) (e : SetEntry)
    (h : Readable params e) :
    get_parameters_diff params e = Except.ok (distSqVal params e) := by
  obtain ⟨v, hv, hlen⟩ := h
  simp [get_parameters_diff, hv, hlen, distSqVal]

/-- Pure mirror of `closest_scan` with `noSpinupOkay = true`, additionally
tracking the running best distance. -/
def closest_scan_val (params : List ℚ) :
    List (ℕ × SetEntry) → Option ℕ × Option ℚ → Option ℕ × Option ℚ
  | [], s => s
  | (i, e) :: rest, s =>
      if diffGtZero s.2 then
        if diffLt (some (distSqVal params e)) s.2 then
          closest_scan_val params rest (some i, some (distSqVal params e))
        else
          closest_scan_val params rest s
      else s

/-- Bridge: on all-readable candidates the faithful scan agrees with the
pure mirror. -/
lemma closest_scan_eq_val (params : List ℚ) (sn : ℕ → Bool)
    (l : List (ℕ × SetEntry)) (s : Option ℕ × Option ℚ)
    (hR : ∀ pr ∈ l, Readable params pr.2) :
    closest_scan params sn true l s.1 s.2 =
      Except.ok (closest_scan_val params l s).1 := by
  induction l generalizing s with
  | nil => simp [closest_scan, closest_scan_val]
  | cons pr rest ih =>
      obtain ⟨i, e⟩ := pr
      have hRe : Readable params e := hR (i, e) (by simp)
      have hRr : ∀ pr ∈ rest, Readable params pr.2 := fun pr h =>
        hR pr (by simp [h])
      simp only [closest_scan, closest_scan_val,
        get_parameters_diff_readable params e hRe]
      by_cases hgt : diffGtZero s.2
      · rw [if_pos hgt, if_pos hgt]
        simp only [Except.bind, bind]
        by_cases hlt : diffLt (some (distSqVal params e)) s.2
        · simp only [hlt, Bool.true_and, if_pos]
          exact ih (some i, some (distSqVal params e)) hRr
        · simp only [hlt, Bool.false_and, if_neg, Bool.and_self]
          exact ih s hRr
      · rw [if_neg hgt, if_neg hgt]

/-- The mirror's result is the initial state or a member with its distance. -/
lemma closest_scan_val_mem (params : List ℚ) :
    ∀ (l : List (ℕ × SetEntry)) (s : Option ℕ × Option ℚ),
      closest_scan_val params l s = s ∨
      ∃ j e, (j, e) ∈ l ∧
        closest_scan_val params l s = (some j, some (distSqVal params e)) := by
  intro l
  induction l with
  | nil => intro s; left; rfl
  | cons pr rest ih =>
      intro s
      obtain ⟨i, e⟩ := pr
      simp only [closest_scan_val]
      by_cases hgt : diffGtZero s.2
      · rw [if_pos hgt]
        by_cases hlt : diffLt (some (distSqVal params e)) s.2
        · rw [if_pos hlt]
          rcases ih (some i, some (distSqVal params e)) with h | ⟨j, e', hm, h⟩
          · right; exact ⟨i, e, by simp, h⟩
          · right; exact ⟨j, e', by simp [hm], h⟩
        · rw [if_neg hlt]
          rcases ih s with h | ⟨j, e', hm, h⟩
          · left; exact h
          · right; exact ⟨j, e', by simp [hm], h⟩
      · rw [if_neg hgt]; left; rfl

/-- The mirror's final best distance never exceeds the starting one. -/
lemma closest_scan_val_le (params : List ℚ) :
    ∀ (l : List (ℕ × SetEntry)) (best : Option ℕ) (b : ℚ),
      ∃ v, (closest_scan_val params l (best, some b)).2 = some v ∧ v ≤ b := by
  intro l
  induction l with
  | nil => intro best b; exact ⟨b, rfl, le_refl b⟩
  | cons pr rest ih =>
      intro best b
      obtain ⟨i, e⟩ := pr
      simp only [closest_scan_val]
      by_cases hgt : diffGtZero (some b)
      · rw [if_pos hgt]
        by_cases hlt : diffLt (some (distSqVal params e)) (some b)
        · rw [if_pos hlt]
          obtain ⟨v, hv, hvb⟩ := ih (some i) (distSqVal params e)
          refine ⟨v, hv, le_trans hvb ?_⟩
          simp only [diffLt, decide_eq_true_eq] at hlt
          linarith
        · rw [if_neg hlt]
          exact ih best b
      · rw [if_neg hgt]
        exact ⟨b, rfl, le_refl b⟩

/-- If some candidate attains distance `m ≥ 0`, the mirror's final best
distance is at most `m` (the standing best, when present, stays
nonnegative along the scan). -/
lemma closest_scan_val_attains (params : List ℚ) :
    ∀ (l : List (ℕ × SetEntry)) (best : Option ℕ) (bd : Option ℚ) (m : ℚ),
      (∃ pr ∈ l, distSqVal params pr.2 = m) →
      0 ≤ m →
      (∀ b, bd = some b → 0 ≤ b) →
      ∃ v, (closest_scan_val params l (best, bd)).2 = some v ∧ v ≤ m := by
  intro l
  induction l with
  | nil =>
      intro best bd m hatt
      simp at hatt
  | cons pr rest ih =>
      intro best bd m hatt hm hbd0
      obtain ⟨i, e⟩ := pr
      simp only [closest_scan_val]
      by_cases hgt : diffGtZero bd
      · rw [if_pos hgt]
        rcases hatt with ⟨pr', hpr', hdm⟩
        rcases List.mem_cons.mp hpr' with heq | hrest
        · -- the head attains m
          have hde : distSqVal params e = m := by rw [heq] at hdm; exact hdm
          by_cases hlt : diffLt (some (distSqVal params e)) bd
          · rw [if_pos hlt]
            obtain ⟨v, hv, hvb⟩ :=
              closest_scan_val_le params rest (some i) (distSqVal params e)
            exact ⟨v, hv, by rw [← hde]; exact hvb⟩
          · rw [if_neg hlt]
            cases bd with
            | none => simp [diffLt] at hlt
            | some b =>
                simp only [diffLt, decide_eq_true_eq, not_lt] at hlt
                obtain ⟨v, hv, hvb⟩ := closest_scan_val_le params rest best b
                exact ⟨v, hv, le_trans hvb (by rw [← hde]; exact hlt)⟩
        · -- the attainer is in the tail
          by_cases hlt : diffLt (some (distSqVal params e)) bd
          · rw [if_pos hlt]
            exact ih (some i) (some (distSqVal params e)) m ⟨pr', hrest, hdm⟩
              hm (by
                intro b hb
                rw [Option.some.injEq] at hb
                rw [← hb]
                exact distSqVal_nonneg _ _)
          · rw [if_neg hlt]
            exact ih best bd m ⟨pr', hrest, hdm⟩ hm hbd0
      · -- early exit: the standing best is 0, hence ≤ m
        rw [if_neg hgt]
        cases bd with
        | none => simp [diffGtZero] at hgt
        | some b =>
            simp only [diffGtZero, decide_eq_true_eq, not_lt] at hgt
            have hb0 : 0 ≤ b := hbd0 b rfl
            exact ⟨b, rfl, by linarith⟩

lemma first_free_contiguous (n : ℕ) :
    ∀ (fuel k : ℕ), k ≤ n → n - k < fuel →
      first_free (fun j => decide (j < n)) k fuel = n := by
  intro fuel
  induction fuel with
  | zero => intro k _ h; omega
  | succ f ih =>
      intro k hk hf
      by_cases hlt : k < n
      · simp only [first_free]
        rw [if_pos (by simpa using hlt)]
        exact ih (k + 1) (by omega) (by omega)
      · simp only [first_free]
        rw [if_neg (by simpa using hlt)]
        omega

lemma readable_enum (params : List ℚ) (sets : List SetEntry)
    (hR : ∀ e ∈ sets, Readable params e) :
    ∀ pr ∈ sets.enum, Readable params pr.2 := by
  rintro ⟨i, e⟩ hpr
  have := List.mk_mem_enum_iff_getElem?.mp hpr
  exact hR e (List.getElem?_mem this)

/-- C2: resolving a query vector whose smallest (squared) distance to the
stored vectors is exactly the threshold returns an existing parameter set at
that distance with the directory list unchanged; a query strictly beyond
the threshold allocates, with creation enabled, a fresh read-only entry at
the next free index, and returns nothing with creation disabled. -/
theorem c2_parameter_set_resolution (cfg : ModelConfig) (sets : List SetEntry)
    (sn : ℕ → Bool) (params : List ℚ) (create : Bool)
    (hR : ∀ e ∈ sets, Readable params e)
    (hb : check_if_parameters_in_bounds cfg params = Except.ok ()) :
    ((∃ e ∈ sets, distSqVal params e = cfg.parametersMaxDiffSq) →
     (∀ e ∈ sets, cfg.parametersMaxDiffSq ≤ distSqVal params e) →
     ∃ j e, sets[j]? = some e ∧
       distSqVal params e = cfg.parametersMaxDiffSq ∧
       get_parameter_set_dir cfg true sets sn params create =
         Except.ok (some j, sets)) ∧
    ((∀ e ∈ sets, cfg.parametersMaxDiffSq < distSqVal params e) →
     get_parameter_set_dir cfg true sets sn params true =
       Except.ok (some sets.length, sets ++ [⟨some params, true⟩])) ∧
    ((∀ e ∈ sets, cfg.parametersMaxDiffSq < distSqVal params e) →
     get_parameter_set_dir cfg true sets sn params false =
       Except.ok (none, sets)) := by
  have hclosest : ∀ c : Bool, get_closest_parameter_set_dir cfg true sets sn params true =
      Except.ok (closest_scan_val params sets.enum (none, none)).1 := by
    intro _
    simp only [get_closest_parameter_set_dir, bind, Except.bind, hb, if_true]
    exact closest_scan_eq_val params sn sets.enum (none, none)
      (readable_enum params sets hR)
  have hfree : first_free (fun j => decide (j < sets.length)) 0
      (sets.length + 1) = sets.length :=
    first_free_contiguous sets.length (sets.length + 1) 0 (by omega) (by omega)
  refine ⟨?_, ?_, ?_⟩
  · intro hatt hlb
    obtain ⟨e0, he0, hde0⟩ := hatt
    obtain ⟨j0, hj0⟩ := List.getElem?_of_mem he0
    have hT0 : 0 ≤ cfg.parametersMaxDiffSq := by
      rw [← hde0]; exact distSqVal_nonneg _ _
    obtain ⟨v, hv, hvm⟩ := closest_scan_val_attains params sets.enum none none
      cfg.parametersMaxDiffSq
      ⟨(j0, e0), List.mk_mem_enum_iff_getElem?.mpr hj0, hde0⟩ hT0
      (by intro b hb'; cases hb')
    rcases closest_scan_val_mem params sets.enum (none, none) with hmem | hmem
    · rw [hmem] at hv; cases hv
    · obtain ⟨j, e, hje, hres⟩ := hmem
      have hjget : sets[j]? = some e := List.mk_mem_enum_iff_getElem?.mp hje
      have hein : e ∈ sets := List.getElem?_mem hjget
      have hvde : v = distSqVal params e := by
        rw [hres] at hv
        exact (Option.some.injEq _ _).mp hv.symm
      have hdeT : distSqVal params e = cfg.parametersMaxDiffSq :=
        le_antisymm (hvde ▸ hvm) (hlb e hein)
      refine ⟨j, e, hjget, hdeT, ?_⟩
      have hfst : (closest_scan_val params sets.enum (none, none)).1 = some j := by
        rw [hres]
      simp only [get_parameter_set_dir, bind, Except.bind, hclosest create, hfst]
      have hget : sets.get? j = some e := by
        rw [List.get?_eq_getElem?]; exact hjget
      simp only [hget, Option.getD_some,
        get_parameters_diff_readable params e (hR e hein), hdeT]
      simp
  · intro hgt
    rcases closest_scan_val_mem params sets.enum (none, none) with hmem | hmem
    · have hfst : (closest_scan_val params sets.enum (none, none)).1 = none := by
        rw [hmem]
      simp only [get_parameter_set_dir, bind, Except.bind, hclosest true, hfst]
      simp [hfree]
    · obtain ⟨j, e, hje, hres⟩ := hmem
      have hjget : sets[j]? = some e := List.mk_mem_enum_iff_getElem?.mp hje
      have hein : e ∈ sets := List.getElem?_mem hjget
      have hfst : (closest_scan_val params sets.enum (none, none)).1 = some j := by
        rw [hres]
      simp only [get_parameter_set_dir, bind, Except.bind, hclosest true, hfst]
      have hget : sets.get? j = some e := by
        rw [List.get?_eq_getElem?]; exact hjget
      simp only [hget, Option.getD_some,
        get_parameters_diff_readable params e (hR e hein)]
      rw [if_pos (hgt e hein)]
      simp [hfree]
  · intro hgt
    rcases closest_scan_val_mem params sets.enum (none, none) with hmem | hmem
    · have hfst : (closest_scan_val params sets.enum (none, none)).1 = none := by
        rw [hmem]
      simp only [get_parameter_set_dir, bind, Except.bind, hclosest false, hfst]
      simp
    · obtain ⟨j, e, hje, hres⟩ := hmem
      have hjget : sets[j]? = some e := List.mk_mem_enum_iff_getElem?.mp hje
      have hein : e ∈ sets := List.getElem?_mem hjget
      have hfst : (closest_scan_val params sets.enum (none, none)).1 = some j := by
        rw [hres]
      simp only [get_parameter_set_dir, bind, Except.bind, hclosest false, hfst]
      have hget : sets.get? j = some e := by
        rw [List.get?_eq_getElem?]; exact hjget
      simp only [hget, Option.getD_some,
        get_parameters_diff_readable params e (hR e hein)]
      rw [if_pos (hgt e hein)]
      simp

/-- Witness for C2: threshold `T² = 1`; the query `[1,0]` is at squared
distance exactly 1 from the stored `[0,0]` and reuses set 0; the query
`[3,0]` (squared distance 9) allocates set 1 read-only. -/
theorem c2_witness :
    get_parameter_set_dir exampleConfig true [⟨some [0, 0], true⟩]
        (fun _ => true) [1, 0] true =
      Except.ok (some 0, [⟨some [0, 0], true⟩]) ∧
    get_parameter_set_dir exampleConfig true [⟨some [0, 0], true⟩]
        (fun _ => true) [3, 0] true =
      Except.ok (some 1, [⟨some [0, 0], true⟩, ⟨some [3, 0], true⟩]) := by
  constructor
  · obtain ⟨j, e, hj, hd, hres⟩ :=
      (c2_parameter_set_resolution exampleConfig [⟨some [0, 0], true⟩]
        (fun _ => true) [1, 0] true
        (by
          intro e he
          simp only [List.mem_singleton] at he
          subst he
          exact ⟨[0, 0], rfl, rfl⟩)
        (by norm_num [check_if_parameters_in_bounds, exampleConfig])).1
      ⟨⟨some [0, 0], true⟩, by simp, by norm_num [distSqVal, exampleConfig]⟩
      (by
        intro e he
        simp only [List.mem_singleton] at he
        subst he
        norm_num [distSqVal, exampleConfig])
    obtain ⟨hjlt, -⟩ := List.getElem?_eq_some.mp hj
    have hj0 : j = 0 := by simpa using hjlt
    subst hj0
    exact hres
  · have h :=
      (c2_parameter_set_resolution exampleConfig [⟨some [0, 0], true⟩]
        (fun _ => true) [3, 0] true
        (by
          intro e he
          simp only [List.mem_singleton] at he
          subst he
          exact ⟨[0, 0], rfl, rfl⟩)
        (by norm_num [check_if_parameters_in_bounds, exampleConfig])).2.1
      (by
        intro e he
        simp only [List.mem_singleton] at he
        subst he
        norm_num [distSqVal, exampleConfig])
    simpa using h

/-- With combination `or` the spinup-chain transformer makes no recursive
call, so its result does not depend on the recursion fuel. -/
lemma gssrd_or_depth (cfg : ModelConfig) (w : SpinupWorld) (psDir : Path)
    (sfc : Bool) (runs : List RunRecord) (yv tv : Option SpinupVal)
    (d d' : ℕ) :
    get_spinup_run_dir cfg w psDir sfc runs
        (some ⟨yv, tv, some (SpinupVal.str "or")⟩) (d + 1) =
      get_spinup_run_dir cfg w psDir sfc runs
        (some ⟨yv, tv, some (SpinupVal.str "or")⟩) (d' + 1) := by
  simp [get_spinup_run_dir,
    all_spinup_options_concrete cfg yv tv "or" (Or.inr rfl), Except.bind, bind]

lemma runDataOf_ne_nil {runs : List RunRecord} {Y R : ℚ}
    (h : runDataOf runs = some (Y, R)) : runs ≠ [] := by
  intro he
  rw [he] at h
  simp [runDataOf] at h

lemma lastRunDirOf_nonempty (dir : Path) {runs : List RunRecord}
    (h : runs ≠ []) :
    lastRunDirOf dir runs = some (dir ++ [PathComp.run (runs.length - 1)]) := by
  simp [lastRunDirOf, h]

/-- Unfolding an `or`-combination call whose last run already matches. -/
lemma gssrd_or_matching (cfg : ModelConfig) (w : SpinupWorld) (psDir : Path)
    (sfc : Bool) (runs : List RunRecord) (y' t' : ℚ) (d : ℕ) (Y R : ℚ)
    (hrd : runDataOf runs = some (Y, R)) (hm : Y ≥ y' ∨ R ≤ t') :
    get_spinup_run_dir cfg w psDir sfc runs
        (some ⟨some (SpinupVal.num y'), some (SpinupVal.num t'),
          some (SpinupVal.str "or")⟩) (d + 1) =
      Except.ok (runs,
        (psDir ++ [spinup_dirname]) ++ [PathComp.run (runs.length - 1)],
        []) := by
  have hne := runDataOf_ne_nil hrd
  conv_lhs => rw [get_spinup_run_dir]
  rw [hrd, irmo_or]
  simp [Except.bind, bind, decide_eq_true (by exact hm),
    lastRunDirOf_nonempty _ hne]

/-- Unfolding an `and`-combination call whose last run does not match, when
the tracer-input pre-check cannot raise (a prior run exists, bootstrap is
off, or a closest set exists): the call reduces to the two recursive `or`
calls, up to the emitted events. -/
lemma gssrd_and_nonmatching_ok (cfg : ModelConfig) (w : SpinupWorld)
    (psDir : Path) (sfc : Bool) (runs : List RunRecord) (y t : ℚ) (d : ℕ)
    (ws : List Warning)
    (hm : is_run_matching_options cfg (runDataOf runs)
        (some ⟨some (SpinupVal.num y), some (SpinupVal.num t),
          some (SpinupVal.str "and")⟩) = Except.ok (false, ws))
    (htr : ¬(lastRunDirOf (psDir ++ [spinup_dirname]) runs = none ∧
        sfc = true) ∨ ∃ c, w.closest = some c) :
    Except.map (fun r => (r.1, r.2.1))
        (get_spinup_run_dir cfg w psDir sfc runs
          (some ⟨some (SpinupVal.num y), some (SpinupVal.num t),
            some (SpinupVal.str "and")⟩) (d + 2)) =
      Except.map (fun r => (r.1, r.2.1))
        (do
          let r1 ← get_spinup_run_dir cfg w psDir sfc runs
            (some ⟨some (SpinupVal.num y), some (SpinupVal.num 0),
              some (SpinupVal.str "or")⟩) (d + 1)
          get_spinup_run_dir cfg w psDir sfc r1.1
            (some ⟨some (SpinupVal.num cfg.spinupMaxYears),
              some (SpinupVal.num t), some (SpinupVal.str "or")⟩)
            (d + 1)) := by
  conv_lhs => rw [get_spinup_run_dir]
  rw [hm, all_spinup_options_concrete cfg _ _ "and" (Or.inl rfl)]
  have hco : (some (SpinupVal.str "and") = some (SpinupVal.str "or")) = False := by
    simp
  have hca : (some (SpinupVal.str "and") = some (SpinupVal.str "and")) = True := by
    simp
  simp only [Except.bind, bind, Bool.false_eq_true, if_false, hco, hca,
    if_true, Option.isNone_iff_eq_none, Bool.and_eq_true, decide_eq_true_eq]
  rcases htr with hnc | ⟨c, hclo⟩
  · rw [if_neg hnc]
    cases hA : get_spinup_run_dir cfg w psDir sfc runs
        (some ⟨some (SpinupVal.num y), some (SpinupVal.num 0),
          some (SpinupVal.str "or")⟩) (d + 1) with
    | error e => simp [Except.map, Except.bind, bind]
    | ok r1 =>
        cases hB : get_spinup_run_dir cfg w psDir sfc r1.1
            (some ⟨some (SpinupVal.num cfg.spinupMaxYears),
              some (SpinupVal.num t), some (SpinupVal.str "or")⟩) (d + 1) with
        | error e => simp [hB, Except.map, Except.bind, bind]
        | ok r2 => simp [hB, Except.map, Except.bind, bind]
  · by_cases hc : (lastRunDirOf (psDir ++ [spinup_dirname]) runs = none ∧
        sfc = true)
    · rw [if_pos hc, hclo]
      obtain ⟨c1, c2⟩ := c
      cases hA : get_spinup_run_dir cfg w psDir sfc runs
          (some ⟨some (SpinupVal.num y), some (SpinupVal.num 0),
            some (SpinupVal.str "or")⟩) (d + 1) with
      | error e => simp [Except.map, Except.bind, bind]
      | ok r1 =>
          cases hB : get_spinup_run_dir cfg w psDir sfc r1.1
              (some ⟨some (SpinupVal.num cfg.spinupMaxYears),
                some (SpinupVal.num t), some (SpinupVal.str "or")⟩) (d + 1) with
          | error e => simp [hB, Except.map, Except.bind, bind]
          | ok r2 => simp [hB, Except.map, Except.bind, bind]
    · rw [if_neg hc]
      cases hA : get_spinup_run_dir cfg w psDir sfc runs
          (some ⟨some (SpinupVal.num y), some (SpinupVal.num 0),
            some (SpinupVal.str "or")⟩) (d + 1) with
      | error e => simp [Except.map, Except.bind, bind]
      | ok r1 =>
          cases hB : get_spinup_run_dir cfg w psDir sfc r1.1
              (some ⟨some (SpinupVal.num cfg.spinupMaxYears),
                some (SpinupVal.num t), some (SpinupVal.str "or")⟩) (d + 1) with
          | error e => simp [hB, Except.map, Except.bind, bind]
          | ok r2 => simp [hB, Except.map, Except.bind, bind]

/-- Unfolding an `and`-combination call on an empty chain with bootstrap on
and no closest parameter set: joining `None` raises `TypeError`. -/
lemma gssrd_and_nonmatching_err (cfg : ModelConfig) (w : SpinupWorld)
    (psDir : Path) (runs : List RunRecord) (y t : ℚ) (d : ℕ)
    (ws : List Warning)
    (hm : is_run_matching_options cfg (runDataOf runs)
        (some ⟨some (SpinupVal.num y), some (SpinupVal.num t),
          some (SpinupVal.str "and")⟩) = Except.ok (false, ws))
    (hempty : runs = []) (hclo : w.closest = none) :
    get_spinup_run_dir cfg w psDir true runs
        (some ⟨some (SpinupVal.num y), some (SpinupVal.num t),
          some (SpinupVal.str "and")⟩) (d + 2) =
      Except.error PyErr.typeError := by
  subst hempty
  conv_lhs => rw [get_spinup_run_dir]
  rw [hm, hclo]
  simp [Except.bind, bind, lastRunDirOf]

/-- Two sequential `or` calls give the same (event-projected) result at any
sufficient recursion fuel. -/
lemma map_bind_or_depth (cfg : ModelConfig) (w : SpinupWorld) (psDir : Path)
    (sfc : Bool) (runs : List RunRecord) (y1 t1 y2 t2 : ℚ) (d : ℕ) :
    Except.map (fun r => (r.1, r.2.1))
        (do
          let r1 ← get_spinup_run_dir cfg w psDir sfc runs
            (some ⟨some (SpinupVal.num y1), some (SpinupVal.num t1),
              some (SpinupVal.str "or")⟩) (d + 1)
          get_spinup_run_dir cfg w psDir sfc r1.1
            (some ⟨some (SpinupVal.num y2), some (SpinupVal.num t2),
              some (SpinupVal.str "or")⟩) (d + 1)) =
      Except.map (fun r => (r.1, r.2.1))
        (do
          let r1 ← get_spinup_run_dir cfg w psDir sfc runs
            (some ⟨some (SpinupVal.num y1), some (SpinupVal.num t1),
              some (SpinupVal.str "or")⟩) (d + 2)
          get_spinup_run_dir cfg w psDir sfc r1.1
            (some ⟨some (SpinupVal.num y2), some (SpinupVal.num t2),
              some (SpinupVal.str "or")⟩) (d + 2)) := by
  cases hA : get_spinup_run_dir cfg w psDir sfc runs
      (some ⟨some (SpinupVal.num y1), some (SpinupVal.num t1),
        some (SpinupVal.str "or")⟩) (d + 1) with
  | error e =>
      have hA2 : get_spinup_run_dir cfg w psDir sfc runs
          (some ⟨some (SpinupVal.num y1), some (SpinupVal.num t1),
            some (SpinupVal.str "or")⟩) (d + 2) = Except.error e :=
        Eq.trans (gssrd_or_depth cfg w psDir sfc runs _ _ (d + 1) d) hA
      rw [hA2]
      simp [hA, Except.map, Except.bind, bind]
  | ok r1 =>
      have hA2 : get_spinup_run_dir cfg w psDir sfc runs
          (some ⟨some (SpinupVal.num y1), some (SpinupVal.num t1),
            some (SpinupVal.str "or")⟩) (d + 2) = Except.ok r1 :=
        Eq.trans (gssrd_or_depth cfg w psDir sfc runs _ _ (d + 1) d) hA
      rw [hA2]
      have hB2 : get_spinup_run_dir cfg w psDir sfc r1.1
          (some ⟨some (SpinupVal.num y2), some (SpinupVal.num t2),
            some (SpinupVal.str "or")⟩) (d + 2) =
          get_spinup_run_dir cfg w psDir sfc r1.1
          (some ⟨some (SpinupVal.num y2), some (SpinupVal.num t2),
            some (SpinupVal.str "or")⟩) (d + 1) :=
        gssrd_or_depth cfg w psDir sfc r1.1 _ _ (d + 1) d
      simp [hA, hB2, Except.map, Except.bind, bind]

/-- C5: for combination `and` with targets `{years y, tolerance t}` where
`y` does not exceed the hard maximum spinup years, `get_spinup_run_dir`
produces the same resulting chain and run directory as two sequential `or`
requests — first `{years: y, tolerance: 0}`, then
`{years: max spinup years, tolerance: t}`. -/
theorem c5_and_equals_two_sequential_or (cfg : ModelConfig)
    (w : SpinupWorld) (psDir : Path) (sfc : Bool) (runs : List RunRecord)
    (y t : ℚ) (d : ℕ) (hY : y ≤ cfg.spinupMaxYears) :
    Except.map (fun r => (r.1, r.2.1))
        (get_spinup_run_dir cfg w psDir sfc runs
          (some ⟨some (SpinupVal.num y), some (SpinupVal.num t),
            some (SpinupVal.str "and")⟩) (d + 2)) =
      Except.map (fun r => (r.1, r.2.1))
        (do
          let r1 ← get_spinup_run_dir cfg w psDir sfc runs
            (some ⟨some (SpinupVal.num y), some (SpinupVal.num 0),
              some (SpinupVal.str "or")⟩) (d + 2)
          get_spinup_run_dir cfg w psDir sfc r1.1
            (some ⟨some (SpinupVal.num cfg.spinupMaxYears),
              some (SpinupVal.num t), some (SpinupVal.str "or")⟩)
            (d + 2)) := by
  cases hrd : runDataOf runs with
  | none =>
      have hempty : runs = [] := by
        cases runs with
        | nil => rfl
        | cons a l =>
            exfalso
            have hg := List.getLast?_eq_getLast (a :: l) (by simp)
            simp [runDataOf, hg] at hrd
      subst hempty
      have hm : is_run_matching_options cfg (runDataOf ([] : List RunRecord))
          (some ⟨some (SpinupVal.num y), some (SpinupVal.num t),
            some (SpinupVal.str "and")⟩) = Except.ok (false, []) :=
        irmo_none cfg _ _ "and" (Or.inl rfl)
      by_cases hbe : sfc = true ∧ w.closest = none
      · obtain ⟨hsfc, hclo⟩ := hbe
        subst hsfc
        rw [gssrd_and_nonmatching_err cfg w psDir [] y t d [] hm rfl hclo]
        have hA : get_spinup_run_dir cfg w psDir true []
            (some ⟨some (SpinupVal.num y), some (SpinupVal.num 0),
              some (SpinupVal.str "or")⟩) (d + 2) =
            Except.error PyErr.typeError := by
          conv_lhs => rw [get_spinup_run_dir]
          rw [show runDataOf ([] : List RunRecord) = none from rfl,
            irmo_none cfg _ _ "or" (Or.inr rfl), hclo]
          simp [Except.bind, bind, lastRunDirOf]
        rw [hA]
        simp [Except.map, Except.bind, bind]
      · have htr : ¬(lastRunDirOf (psDir ++ [spinup_dirname]) [] = none ∧
            sfc = true) ∨ ∃ c, w.closest = some c := by
          by_cases hs : sfc = true
          · cases hclo : w.closest with
            | none => exact absurd ⟨hs, hclo⟩ hbe
            | some c => exact Or.inr ⟨c, rfl⟩
          · exact Or.inl (fun hcon => hs hcon.2)
        rw [gssrd_and_nonmatching_ok cfg w psDir sfc [] y t d [] hm htr]
        exact map_bind_or_depth cfg w psDir sfc [] y 0 cfg.spinupMaxYears t d
  | some YR =>
      obtain ⟨Y, R⟩ := YR
      have hne := runDataOf_ne_nil hrd
      have hlast := lastRunDirOf_nonempty (psDir ++ [spinup_dirname]) hne
      by_cases hm : ((Y ≥ y ∧ R ≤ t) ∨ Y ≥ cfg.spinupMaxYears)
      · have hY1 : Y ≥ y := by
          rcases hm with ⟨h1, _⟩ | hc
          · exact h1
          · linarith
        have hor2cond : Y ≥ cfg.spinupMaxYears ∨ R ≤ t := by
          rcases hm with ⟨_, h2⟩ | hc
          · exact Or.inr h2
          · exact Or.inl hc
        have hor1 := gssrd_or_matching cfg w psDir sfc runs y 0 (d + 1) Y R
          hrd (Or.inl hY1)
        have hor2 := gssrd_or_matching cfg w psDir sfc runs
          cfg.spinupMaxYears t (d + 1) Y R hrd hor2cond
        have hor1' : get_spinup_run_dir cfg w psDir sfc runs
            (some ⟨some (SpinupVal.num y), some (SpinupVal.num 0),
              some (SpinupVal.str "or")⟩) (d + 2) =
            Except.ok (runs,
              (psDir ++ [spinup_dirname]) ++ [PathComp.run (runs.length - 1)],
              []) :=
          Eq.trans (gssrd_or_depth cfg w psDir sfc runs _ _ (d + 1) d) hor1
        have hor2' : get_spinup_run_dir cfg w psDir sfc runs
            (some ⟨some (SpinupVal.num cfg.spinupMaxYears),
              some (SpinupVal.num t), some (SpinupVal.str "or")⟩) (d + 2) =
            Except.ok (runs,
              (psDir ++ [spinup_dirname]) ++ [PathComp.run (runs.length - 1)],
              []) :=
          Eq.trans (gssrd_or_depth cfg w psDir sfc runs _ _ (d + 1) d) hor2
        conv_lhs => rw [get_spinup_run_dir]
        rw [hrd, irmo_and]
        rw [hor1']
        simp only [Except.bind, bind, decide_eq_true hm, if_true, hlast,
          Except.map]
        simp [hor2', Except.bind, bind, Except.map]
      · have hmf : is_run_matching_options cfg (runDataOf runs)
            (some ⟨some (SpinupVal.num y), some (SpinupVal.num t),
              some (SpinupVal.str "and")⟩) = Except.ok (false, []) := by
          rw [hrd, irmo_and]
          simp [hm]
        have htr : ¬(lastRunDirOf (psDir ++ [spinup_dirname]) runs = none ∧
            sfc = true) ∨ ∃ c, w.closest = some c := by
          refine Or.inl (fun hcon => ?_)
          rw [hlast] at hcon
          cases hcon.1
        rw [gssrd_and_nonmatching_ok cfg w psDir sfc runs y t d [] hmf htr]
        exact map_bind_or_depth cfg w psDir sfc runs y 0 cfg.spinupMaxYears t d

/-- A concrete one-parameter-set world: a deterministic job oracle that
achieves exactly the submitted years and the target tolerance, parameters
`[1, 0]`, time step 1, no closest set. -/
def exampleSpinupWorld : SpinupWorld :=
  { oracle := fun _ s t => (s, t)
    psParams := [1, 0]
    timeStep := 1
    closest := none }

/-- A one-run chain that has reached the hard maximum spinup years (10000)
with achieved tolerance 1. -/
def exampleChain : List RunRecord := [⟨10000, 1, 10000, 1⟩]

/-- Witness for C5 at years 5000 ≤ ceiling 10000 and tolerance 1/2. -/
theorem c5_witness :
    (5000 : ℚ) ≤ exampleConfig.spinupMaxYears ∧
    Except.map (fun r => (r.1, r.2.1))
        (get_spinup_run_dir exampleConfig exampleSpinupWorld [] false
          exampleChain
          (some ⟨some (SpinupVal.num 5000), some (SpinupVal.num (1 / 2)),
            some (SpinupVal.str "and")⟩) 2) =
      Except.map (fun r => (r.1, r.2.1))
        (do
          let r1 ← get_spinup_run_dir exampleConfig exampleSpinupWorld []
            false exampleChain
            (some ⟨some (SpinupVal.num 5000), some (SpinupVal.num 0),
              some (SpinupVal.str "or")⟩) 2
          get_spinup_run_dir exampleConfig exampleSpinupWorld [] false r1.1
            (some ⟨some (SpinupVal.num exampleConfig.spinupMaxYears),
              some (SpinupVal.num (1 / 2)), some (SpinupVal.str "or")⟩) 2) :=
  ⟨by norm_num [exampleConfig],
    c5_and_equals_two_sequential_or exampleConfig exampleSpinupWorld []
      false exampleChain 5000 (1 / 2) 0 (by norm_num [exampleConfig])⟩

/-- C5 counterexample: with a years target of 11000 above the ceiling
10000 and a chain already at the ceiling, the direct `and` request returns
the existing run 0, while the two sequential `or` requests extend the chain
and return the new run 1 — the claim fails as universally stated. -/
theorem c5_counterexample :
    Except.map (fun r => (r.1, r.2.1))
        (get_spinup_run_dir exampleConfig exampleSpinupWorld [] false
          exampleChain
          (some ⟨some (SpinupVal.num 11000), some (SpinupVal.num (1 / 2)),
            some (SpinupVal.str "and")⟩) 2) ≠
      Except.map (fun r => (r.1, r.2.1))
        (do
          let r1 ← get_spinup_run_dir exampleConfig exampleSpinupWorld []
            false exampleChain
            (some ⟨some (SpinupVal.num 11000), some (SpinupVal.num 0),
              some (SpinupVal.str "or")⟩) 2
          get_spinup_run_dir exampleConfig exampleSpinupWorld [] false r1.1
            (some ⟨some (SpinupVal.num 10000),
              some (SpinupVal.num (1 / 2)), some (SpinupVal.str "or")⟩) 2) := by
  have hdirect : get_spinup_run_dir exampleConfig exampleSpinupWorld []
      false exampleChain
      (some ⟨some (SpinupVal.num 11000), some (SpinupVal.num (1 / 2)),
        some (SpinupVal.str "and")⟩) 2 =
      Except.ok (exampleChain, [spinup_dirname, PathComp.run 0],
        [Event.warn Warning.ceilingToleranceWaived]) := by
    norm_num [get_spinup_run_dir, exampleConfig, exampleSpinupWorld,
      exampleChain, irmo_and, runDataOf, lastRunDirOf, spinup_dirname,
      Except.bind, bind, pure]
  have hseq1 : get_spinup_run_dir exampleConfig exampleSpinupWorld [] false
      exampleChain
      (some ⟨some (SpinupVal.num 11000), some (SpinupVal.num 0),
        some (SpinupVal.str "or")⟩) 2 =
      Except.ok (exampleChain ++ [⟨11000, 0, 1000, 0⟩],
        [spinup_dirname, PathComp.run 1],
        [Event.wait [spinup_dirname, PathComp.run 0],
          Event.submit [spinup_dirname, PathComp.run 1] true,
          Event.wait [spinup_dirname, PathComp.run 1]]) := by
    norm_num [get_spinup_run_dir, exampleConfig, exampleSpinupWorld,
      exampleChain, irmo_or, all_spinup_options_concrete,
      runDataOf, lastRunDirOf, spinup_dirname, make_run,
      check_if_parameters_in_bounds, run_job, wait_until_job_finished,
      WaitSpec.truthy, get_total_years, run_index_fuel, spinupWorldFs,
      chainFs, get_previous_run_dir, get_int_in_comp, pyNum,
      Except.bind, bind, pure]
  have hseq2 : get_spinup_run_dir exampleConfig exampleSpinupWorld [] false
      (exampleChain ++ [⟨11000, 0, 1000, 0⟩])
      (some ⟨some (SpinupVal.num 10000), some (SpinupVal.num (1 / 2)),
        some (SpinupVal.str "or")⟩) 2 =
      Except.ok (exampleChain ++ [⟨11000, 0, 1000, 0⟩],
        [spinup_dirname, PathComp.run 1], []) := by
    norm_num [get_spinup_run_dir, exampleConfig, exampleSpinupWorld,
      exampleChain, irmo_or, runDataOf, lastRunDirOf, spinup_dirname,
      Except.bind, bind, pure]
  rw [hdirect, hseq1]
  simp only [Except.bind, bind]
  rw [hseq2]
  simp [Except.map, exampleChain]

/-- C4 (amended): the at-points variant `df_points` never returns a
derivative tensor containing a NaN entry — a NaN tensor makes it raise the
assertion instead.  (The all-values variant `df_all` performs no such
check; see the counterexample.) -/
theorem c4_df_points_no_nan (cfg : ModelConfig) (w : DfWorld) (st : DfState)
    (params : List ℚ) (opts : Option SpinupOptions) (ao depth : ℕ)
    (st' : DfState) (df : Mat2) (ev : List Event)
    (h : df_points cfg w st params opts ao depth =
      Except.ok (st', df, ev)) :
    anyNanMat df.1 = false ∧ anyNanMat df.2 = false := by
  simp only [df_points, bind, Except.bind] at h
  cases hdf : _df cfg w st params opts ao depth with
  | error e => rw [hdf] at h; simp at h
  | ok r =>
      rw [hdf] at h
      obtain ⟨s1, dfo, e1⟩ := r
      cases dfo with
      | none => simp at h
      | some m =>
          simp only at h
          by_cases hcond : (anyNanMat m.1 || anyNanMat m.2) = true
          · rw [if_pos hcond] at h
            simp at h
          · rw [if_neg hcond] at h
            simp only [Except.ok.injEq, Prod.mk.injEq] at h
            obtain ⟨-, hm, -⟩ := h
            rw [← hm]
            simpa [Bool.or_eq_true, not_or] using hcond

/-- A single-parameter model configuration (bounds `[0]..[10]`). -/
def exampleConfig1 : ModelConfig :=
  { parametersLowerBound := [0]
    parametersUpperBound := [10]
    defaultSpinupOptions :=
      ⟨some (SpinupVal.num 10000), some (SpinupVal.num 0),
        some (SpinupVal.str "or")⟩
    spinupMaxYears := 10000
    derivativeSpinupYears := 1
    parametersMaxDiffSq := 1
    startFromClosest := false
    timeStep := 1 }

/-- A partial-derivative run chain that already satisfies the reduced
derivative policy (1 year achieved, tolerance 0). -/
def examplePartialChain : List RunRecord := [⟨1, 0, 1, 0⟩]

/-- Orchestrator state with a converged spinup chain and matching partial
derivative runs at every key. -/
def exampleDfState : DfState := ⟨exampleChain, fun _ _ => examplePartialChain⟩

/-- A derivative world whose trajectory loader yields the constant value 2
for every run and tracer. -/
def exampleDfWorld : DfWorld :=
  { spinup :=
      { oracle := fun _ s t => (s, t)
        psParams := [1]
        timeStep := 1
        closest := none }
    psDir := []
    traj := fun _ _ => [Val.num 2] }

/-- The same world with a trajectory loader producing NaN. -/
def exampleDfWorldNan : DfWorld :=
  { exampleDfWorld with traj := fun _ _ => [Val.nan] }

/-- Witness for C4: on the constant-2 world `df_points` succeeds and its
tensor (both tracers `[[0]]`) is NaN-free by `c4_df_points_no_nan`. -/
theorem c4_witness :
    (df_points exampleConfig1 exampleDfWorld exampleDfState [1]
        (some ⟨some (SpinupVal.num 10000), some (SpinupVal.num 0),
          some (SpinupVal.str "or")⟩) 2 1).map
      (fun r => (r.2.1.1, r.2.1.2)) =
      Except.ok ([[Val.num 0]], [[Val.num 0]]) ∧
    anyNanMat [[Val.num 0]] = false := by
  have hproj : (df_points exampleConfig1 exampleDfWorld exampleDfState [1]
      (some ⟨some (SpinupVal.num 10000), some (SpinupVal.num 0),
        some (SpinupVal.str "or")⟩) 2 1).map
      (fun r => (r.2.1.1, r.2.1.2)) =
      Except.ok ([[Val.num 0]], [[Val.num 0]]) := by
    norm_num [df_points, _df, df_submit_all, df_submit_row, df_submit_step,
      df_wait_all, df_wait_row, df_wait_step, df_finalize_row,
      matModifyRow, vecAddScaled, vecSub, vecDivQ, zerosMat, zerosVec,
      Val.add, Val.scale, Val.divQ, Val.isnan, anyNanMat, derivative_step,
      partialDerivativeDir, derivative_dirname, lastRunDirOf, runDataOf,
      irmo_or, all_spinup_options_concrete, pyNum, get_spinup_run_dir,
      get_total_years, run_index_fuel, dfFs, spinupWorldFs, chainFs,
      partialFs, trajectory_tmp, wait_until_job_finished, WaitSpec.truthy,
      run_job, check_if_parameters_in_bounds, exampleConfig1,
      exampleDfWorld, exampleDfState, exampleChain, examplePartialChain,
      spinup_dirname, get_previous_run_dir, get_int_in_comp, Except.map,
      Except.bind, bind, pure]
  refine ⟨hproj, ?_⟩
  cases hdp : df_points exampleConfig1 exampleDfWorld exampleDfState [1]
      (some ⟨some (SpinupVal.num 10000), some (SpinupVal.num 0),
        some (SpinupVal.str "or")⟩) 2 1 with
  | error e => rw [hdp] at hproj; simp [Except.map] at hproj
  | ok r =>
      rw [hdp] at hproj
      simp only [Except.map, Except.ok.injEq, Prod.mk.injEq] at hproj
      obtain ⟨s1, df0, e1⟩ := r
      have hc := c4_df_points_no_nan exampleConfig1 exampleDfWorld
        exampleDfState [1]
        (some ⟨some (SpinupVal.num 10000), some (SpinupVal.num 0),
          some (SpinupVal.str "or")⟩) 2 1 s1 df0 e1 hdp
      rw [← hproj.1]
      exact hc.1

/-- C4 counterexample: with a NaN-producing trajectory, `df_all` *returns*
(`Except.ok`) a derivative tensor every entry of which is NaN, instead of
raising — the claim fails for the all-values variant. -/
theorem c4_counterexample :
    (df_all exampleConfig1 exampleDfWorldNan exampleDfState [1]
        (some ⟨some (SpinupVal.num 10000), some (SpinupVal.num 0),
          some (SpinupVal.str "or")⟩) 2 1).map
      (fun r => r.2.1.map (fun df => (anyNanMat df.1, anyNanMat df.2))) =
      Except.ok (some (true, true)) := by
  norm_num [df_all, _df, df_submit_all, df_submit_row, df_submit_step,
    df_wait_all, df_wait_row, df_wait_step, df_finalize_row,
    matModifyRow, vecAddScaled, vecSub, vecDivQ, zerosMat, zerosVec,
    Val.add, Val.scale, Val.divQ, Val.isnan, anyNanMat, derivative_step,
    partialDerivativeDir, derivative_dirname, lastRunDirOf, runDataOf,
    irmo_or, all_spinup_options_concrete, pyNum, get_spinup_run_dir,
    get_total_years, run_index_fuel, dfFs, spinupWorldFs, chainFs,
    partialFs, trajectory_tmp, wait_until_job_finished, WaitSpec.truthy,
    run_job, check_if_parameters_in_bounds, exampleConfig1,
    exampleDfWorldNan, exampleDfWorld, exampleDfState, exampleChain,
    examplePartialChain, spinup_dirname, get_previous_run_dir,
    get_int_in_comp, Except.map, Except.bind, bind, pure]



/-! ## C7: the two phases of the derivative computation -/

/-- A partial-derivative run directory: a path ending in a run directory
placed directly under a partial-derivative directory. -/
def isPartialRunPath (p : Path) : Bool :=
  match p.reverse with
  | PathComp.run _ :: PathComp.part _ _ :: _ => true
  | _ => false

/-- Whether an event submits or waits on a partial-derivative run. -/
def Event.partialTouch : Event → Bool
  | Event.submit p _ => isPartialRunPath p
  | Event.wait p => isPartialRunPath p
  | Event.warn _ => false

lemma iprp_name_last (q : Path) (s : String) :
    isPartialRunPath (q ++ [PathComp.name s]) = false := by
  simp [isPartialRunPath, List.reverse_append]

lemma iprp_name_run (q : Path) (s : String) (j : ℕ) :
    isPartialRunPath (q ++ [PathComp.name s, PathComp.run j]) = false := by
  simp [isPartialRunPath, List.reverse_append]

lemma iprp_part_run (q : Path) (i : ℕ) (sg : ℤ) (j : ℕ) :
    isPartialRunPath (q ++ [PathComp.part i sg, PathComp.run j]) = true := by
  simp [isPartialRunPath, List.reverse_append]

lemma iprp_partial_run (x : Path) (i : ℕ) (sg : ℤ) (j : ℕ) :
    isPartialRunPath (partialDerivativeDir x i sg ++ [PathComp.run j]) = true := by
  have he : partialDerivativeDir x i sg ++ [PathComp.run j] =
      (x ++ [derivative_dirname]) ++ [PathComp.part i sg, PathComp.run j] := by
    simp [partialDerivativeDir, derivative_dirname]
  rw [he]
  exact iprp_part_run _ _ _ _

/-- The last run directory of a chain rooted in a `spinup` directory is not
a partial-derivative run. -/
lemma lastRunDirOf_spinup_safe (x : Path) (runs : List RunRecord)
    (p : Path) (h : lastRunDirOf (x ++ [spinup_dirname]) runs = some p) :
    isPartialRunPath p = false := by
  unfold lastRunDirOf at h
  by_cases hr : runs.isEmpty
  · rw [if_pos hr] at h; cases h
  · rw [if_neg hr] at h
    have hp : p = x ++ [PathComp.name "spinup", PathComp.run (runs.length - 1)] := by
      have := (Option.some.injEq _ _).mp h
      rw [← this]
      simp [spinup_dirname]
    rw [hp]
    exact iprp_name_run _ _ _

/-- Events of a successful `run_job`: one submit recording the wait
interval's truthiness, then the (possibly empty) wait. -/
lemma run_job_events (cfg : ModelConfig) (params : List ℚ) (outputPath : Path)
    (years tolerance timeStep : ℚ) (ws : WaitSpec) (ev : List Event)
    (h : run_job cfg params outputPath years tolerance timeStep ws =
      Except.ok ev) :
    ev = Event.submit outputPath (WaitSpec.truthy ws) ::
      wait_until_job_finished outputPath ws := by
  simp only [run_job, bind, Except.bind] at h
  by_cases hc : years < 0 ∨ tolerance < 0 ∨ timeStep < 1
  · rw [if_pos hc] at h; cases h
  · rw [if_neg hc] at h
    cases hb : check_if_parameters_in_bounds cfg params with
    | error e => simp [hb] at h
    | ok u =>
        rw [hb] at h
        simp only [Except.ok.injEq] at h
        exact h.symm

/-- A successful `make_run` ran its job at `outputPath/run numRuns`; its
events are that job's submit (recording the wait interval's truthiness)
followed by its wait. -/
lemma make_run_events (cfg : ModelConfig) (fs : RunFs) (numRuns : ℕ)
    (outputPath : Path) (params : List ℚ) (years tolerance timeStep : ℚ)
    (tracer : Option Path) (ws : WaitSpec) (rd : Path) (sub : ℚ)
    (ev : List Event)
    (h : make_run cfg fs numRuns outputPath params years tolerance timeStep
      tracer ws = Except.ok (rd, sub, ev)) :
    rd = outputPath ++ [PathComp.run numRuns] ∧
      ev = Event.submit rd (WaitSpec.truthy ws) ::
        wait_until_job_finished rd ws := by
  simp only [make_run, bind, Except.bind] at h
  cases hb : check_if_parameters_in_bounds cfg params with
  | error e => simp [hb] at h
  | ok u =>
      rw [hb] at h
      simp only at h
      cases tracer with
      | none =>
          simp only [sub_zero] at h
          cases hrj : run_job cfg params (outputPath ++ [PathComp.run numRuns])
              years tolerance timeStep ws with
          | error e => simp [hrj] at h
          | ok evs =>
              rw [hrj] at h
              simp only [Except.ok.injEq, Prod.mk.injEq] at h
              obtain ⟨h1, h2, h3⟩ := h
              subst h1; subst h3
              exact ⟨rfl, run_job_events _ _ _ _ _ _ _ _ hrj⟩
      | some tp =>
          simp only at h
          by_cases hip : outputPath = List.dropLast tp
          · rw [if_pos hip] at h
            cases hty : get_total_years fs (some tp) (run_index_fuel tp) with
            | error e => simp [hty] at h
            | ok Y =>
                rw [hty] at h
                simp only at h
                cases hrj : run_job cfg params
                    (outputPath ++ [PathComp.run numRuns])
                    (years - Y) tolerance timeStep ws with
                | error e => simp [hrj] at h
                | ok evs =>
                    rw [hrj] at h
                    simp only [Except.ok.injEq, Prod.mk.injEq] at h
                    obtain ⟨h1, h2, h3⟩ := h
                    subst h1; subst h3
                    exact ⟨rfl, run_job_events _ _ _ _ _ _ _ _ hrj⟩
          · rw [if_neg hip] at h
            simp only [sub_zero] at h
            cases hrj : run_job cfg params (outputPath ++ [PathComp.run numRuns])
                years tolerance timeStep ws with
            | error e => simp [hrj] at h
            | ok evs =>
                rw [hrj] at h
                simp only [Except.ok.injEq, Prod.mk.injEq] at h
                obtain ⟨h1, h2, h3⟩ := h
                subst h1; subst h3
                exact ⟨rfl, run_job_events _ _ _ _ _ _ _ _ hrj⟩

/-- Waiting classifies by the awaited path. -/
lemma wait_until_partialTouch (p : Path) (ws : WaitSpec)
    (hp : isPartialRunPath p = false) :
    ∀ e ∈ wait_until_job_finished p ws, Event.partialTouch e = false := by
  intro e he
  unfold wait_until_job_finished at he
  by_cases ht : WaitSpec.truthy ws = true
  · rw [if_pos ht] at he
    rcases List.mem_singleton.mp he with rfl
    simpa [Event.partialTouch] using hp
  · rw [if_neg ht] at he
    simp at he

/-- A job's submit-then-wait events classify by the job's path. -/
lemma submit_wait_partialTouch (p : Path) (b : Bool) (ws : WaitSpec)
    (hp : isPartialRunPath p = false) :
    ∀ e ∈ Event.submit p b :: wait_until_job_finished p ws,
      Event.partialTouch e = false := by
  intro e he
  rcases List.mem_cons.mp he with rfl | he'
  · simpa [Event.partialTouch] using hp
  · exact wait_until_partialTouch p ws hp e he'

lemma warn_map_partialTouch (ws : List Warning) :
    ∀ e ∈ List.map Event.warn ws, Event.partialTouch e = false := by
  intro e he
  obtain ⟨x, -, rfl⟩ := List.mem_map.mp he
  rfl

/-- No event of `get_spinup_run_dir` touches a partial-derivative run: its
submits and waits are all on spinup run directories. -/
lemma gssrd_events_safe (cfg : ModelConfig) (w : SpinupWorld) (psDir : Path)
    (sfc : Bool) :
    ∀ (depth : ℕ) (runs : List RunRecord) (opts : Option SpinupOptions)
      (r : List RunRecord × Path × List Event),
      get_spinup_run_dir cfg w psDir sfc runs opts depth = Except.ok r →
      ∀ e ∈ r.2.2, Event.partialTouch e = false := by
  intro depth
  induction depth with
  | zero =>
      intro runs opts r h
      simp [get_spinup_run_dir] at h
  | succ d ih =>
      intro runs opts r h
      rw [get_spinup_run_dir] at h
      simp only [bind, Except.bind] at h
      cases himo : is_run_matching_options cfg (runDataOf runs) opts with
      | error e => simp [himo] at h
      | ok mw =>
          obtain ⟨m, ws0⟩ := mw
          rw [himo] at h
          simp only at h
          cases m with
          | true =>
              rw [if_pos rfl] at h
              cases hlr : lastRunDirOf (psDir ++ [spinup_dirname]) runs with
              | none => rw [hlr] at h; simp at h
              | some p0 =>
                  rw [hlr] at h
                  simp only [Except.ok.injEq] at h
                  subst h
                  exact warn_map_partialTouch ws0
          | false =>
              rw [if_neg Bool.false_ne_true] at h
              by_cases hcond : ((lastRunDirOf (psDir ++ [spinup_dirname]) runs).isNone
                  && sfc) = true
              · rw [if_pos hcond] at h
                cases hclo : w.closest with
                | none => rw [hclo] at h; simp at h
                | some c =>
                    obtain ⟨cpsDir, cruns⟩ := c
                    rw [hclo] at h
                    simp only at h
                    cases hao : all_spinup_options cfg opts with
                    | error e => rw [hao] at h; simp at h
                    | ok r2 =>
                        obtain ⟨⟨yv, tv, cv⟩, ws2⟩ := r2
                        rw [hao] at h
                        simp only at h
                        by_cases hor : cv = some (SpinupVal.str "or")
                        · rw [if_pos hor] at h
                          cases hyy : pyNum yv with
                          | error e => rw [hyy] at h; simp at h
                          | ok years =>
                              rw [hyy] at h
                              simp only at h
                              cases htt : pyNum tv with
                              | error e => rw [htt] at h; simp at h
                              | ok tol =>
                                  rw [htt] at h
                                  simp only at h
                                  cases hmk : make_run cfg
                                      (spinupWorldFs w (psDir ++ [spinup_dirname]) runs)
                                      runs.length (psDir ++ [spinup_dirname]) w.psParams
                                      years tol w.timeStep
                                      (lastRunDirOf (cpsDir ++ [spinup_dirname]) cruns)
                                      (some 120) with
                                  | error e => rw [hmk] at h; simp at h
                                  | ok r3 =>
                                      obtain ⟨runDir, sub, evRun⟩ := r3
                                      rw [hmk] at h
                                      simp only [Except.ok.injEq] at h
                                      subst h
                                      refine List.forall_mem_append.mpr
                                        ⟨List.forall_mem_append.mpr
                                          ⟨List.forall_mem_append.mpr ⟨?_, ?_⟩, ?_⟩, ?_⟩
                                      · exact warn_map_partialTouch ws0
                                      · cases hlro : lastRunDirOf (cpsDir ++ [spinup_dirname]) cruns with
                                        | none => intro e he; simp at he
                                        | some p0 =>
                                            exact wait_until_partialTouch p0 _
                                              (lastRunDirOf_spinup_safe cpsDir cruns p0 hlro)
                                      · exact warn_map_partialTouch ws2
                                      · obtain ⟨hrd, hev⟩ :=
                                          make_run_events _ _ _ _ _ _ _ _ _ _ _ _ _ hmk
                                        rw [hev]
                                        have hshape : (psDir ++ [spinup_dirname]) ++
                                            [PathComp.run runs.length] =
                                            psDir ++ [PathComp.name "spinup",
                                              PathComp.run runs.length] := by
                                          simp [spinup_dirname]
                                        have hnp : isPartialRunPath runDir = false := by
                                          rw [hrd, hshape]
                                          exact iprp_name_run _ _ _
                                        exact submit_wait_partialTouch runDir _ _ hnp
                        · rw [if_neg hor] at h
                          by_cases hand : cv = some (SpinupVal.str "and")
                          · rw [if_pos hand] at h
                            cases hrec1 : get_spinup_run_dir cfg w psDir sfc runs
                                (some ⟨yv, some (SpinupVal.num 0),
                                  some (SpinupVal.str "or")⟩) d with
                            | error e => rw [hrec1] at h; simp at h
                            | ok r1 =>
                                obtain ⟨runs1, pp1, ev1⟩ := r1
                                rw [hrec1] at h
                                simp only at h
                                cases hrec2 : get_spinup_run_dir cfg w psDir sfc runs1
                                    (some ⟨some (SpinupVal.num cfg.spinupMaxYears), tv,
                                      some (SpinupVal.str "or")⟩) d with
                                | error e => rw [hrec2] at h; simp at h
                                | ok r4 =>
                                    obtain ⟨runs2, pp2, ev2⟩ := r4
                                    rw [hrec2] at h
                                    simp only [Except.ok.injEq] at h
                                    subst h
                                    refine List.forall_mem_append.mpr
                                      ⟨List.forall_mem_append.mpr
                                        ⟨List.forall_mem_append.mpr
                                          ⟨List.forall_mem_append.mpr ⟨?_, ?_⟩, ?_⟩, ?_⟩, ?_⟩
                                    · exact warn_map_partialTouch ws0
                                    · cases hlro : lastRunDirOf (cpsDir ++ [spinup_dirname]) cruns with
                                      | none => intro e he; simp at he
                                      | some p0 =>
                                          exact wait_until_partialTouch p0 _
                                            (lastRunDirOf_spinup_safe cpsDir cruns p0 hlro)
                                    · exact warn_map_partialTouch ws2
                                    · exact ih runs _ (runs1, pp1, ev1) hrec1
                                    · exact ih runs1 _ (runs2, pp2, ev2) hrec2
                          · rw [if_neg hand] at h
                            simp at h
              · rw [if_neg hcond] at h
                cases hao : all_spinup_options cfg opts with
                | error e => rw [hao] at h; simp at h
                | ok r2 =>
                    obtain ⟨⟨yv, tv, cv⟩, ws2⟩ := r2
                    rw [hao] at h
                    simp only at h
                    by_cases hor : cv = some (SpinupVal.str "or")
                    · rw [if_pos hor] at h
                      cases hyy : pyNum yv with
                      | error e => rw [hyy] at h; simp at h
                      | ok years =>
                          rw [hyy] at h
                          simp only at h
                          cases htt : pyNum tv with
                          | error e => rw [htt] at h; simp at h
                          | ok tol =>
                              rw [htt] at h
                              simp only at h
                              cases hmk : make_run cfg
                                  (spinupWorldFs w (psDir ++ [spinup_dirname]) runs)
                                  runs.length (psDir ++ [spinup_dirname]) w.psParams
                                  years tol w.timeStep
                                  (lastRunDirOf (psDir ++ [spinup_dirname]) runs)
                                  (some 120) with
                              | error e => rw [hmk] at h; simp at h
                              | ok r3 =>
                                  obtain ⟨runDir, sub, evRun⟩ := r3
                                  rw [hmk] at h
                                  simp only [Except.ok.injEq] at h
                                  subst h
                                  refine List.forall_mem_append.mpr
                                    ⟨List.forall_mem_append.mpr
                                      ⟨List.forall_mem_append.mpr ⟨?_, ?_⟩, ?_⟩, ?_⟩
                                  · exact warn_map_partialTouch ws0
                                  · cases hlro : lastRunDirOf (psDir ++ [spinup_dirname]) runs with
                                    | none => intro e he; simp at he
                                    | some p0 =>
                                        exact wait_until_partialTouch p0 _
                                          (lastRunDirOf_spinup_safe psDir runs p0 hlro)
                                  · exact warn_map_partialTouch ws2
                                  · obtain ⟨hrd, hev⟩ :=
                                      make_run_events _ _ _ _ _ _ _ _ _ _ _ _ _ hmk
                                    rw [hev]
                                    have hshape : (psDir ++ [spinup_dirname]) ++
                                        [PathComp.run runs.length] =
                                        psDir ++ [PathComp.name "spinup",
                                          PathComp.run runs.length] := by
                                      simp [spinup_dirname]
                                    have hnp : isPartialRunPath runDir = false := by
                                      rw [hrd, hshape]
                                      exact iprp_name_run _ _ _
                                    exact submit_wait_partialTouch runDir _ _ hnp
                    · rw [if_neg hor] at h
                      by_cases hand : cv = some (SpinupVal.str "and")
                      · rw [if_pos hand] at h
                        cases hrec1 : get_spinup_run_dir cfg w psDir sfc runs
                            (some ⟨yv, some (SpinupVal.num 0),
                              some (SpinupVal.str "or")⟩) d with
                        | error e => rw [hrec1] at h; simp at h
                        | ok r1 =>
                            obtain ⟨runs1, pp1, ev1⟩ := r1
                            rw [hrec1] at h
                            simp only at h
                            cases hrec2 : get_spinup_run_dir cfg w psDir sfc runs1
                                (some ⟨some (SpinupVal.num cfg.spinupMaxYears), tv,
                                  some (SpinupVal.str "or")⟩) d with
                            | error e => rw [hrec2] at h; simp at h
                            | ok r4 =>
                                obtain ⟨runs2, pp2, ev2⟩ := r4
                                rw [hrec2] at h
                                simp only [Except.ok.injEq] at h
                                subst h
                                refine List.forall_mem_append.mpr
                                  ⟨List.forall_mem_append.mpr
                                    ⟨List.forall_mem_append.mpr
                                      ⟨List.forall_mem_append.mpr ⟨?_, ?_⟩, ?_⟩, ?_⟩, ?_⟩
                                · exact warn_map_partialTouch ws0
                                · cases hlro : lastRunDirOf (psDir ++ [spinup_dirname]) runs with
                                  | none => intro e he; simp at he
                                  | some p0 =>
                                      exact wait_until_partialTouch p0 _
                                        (lastRunDirOf_spinup_safe psDir runs p0 hlro)
                                · exact warn_map_partialTouch ws2
                                · exact ih runs _ (runs1, pp1, ev1) hrec1
                                · exact ih runs1 _ (runs2, pp2, ev2) hrec2
                      · rw [if_neg hand] at h
                        simp at h

/-- A run directory either freshly submitted (non-blocking) by this
derivative computation's submission pass, or already recorded as the last
run of its partial-derivative directory in the initial state `st0`. -/
def SubmitOrKnown (w : DfWorld) (st0 : DfState) (ev : List Event)
    (p : Path) : Prop :=
  Event.submit p false ∈ ev ∨
    ∃ i s, lastRunDirOf (partialDerivativeDir w.psDir i s)
      (st0.partialRuns i s) = some p

lemma submitOrKnown_mono (w : DfWorld) (st0 : DfState) {ev ev' : List Event}
    (hsub : ∀ e ∈ ev, e ∈ ev') {p : Path} (h : SubmitOrKnown w st0 ev p) :
    SubmitOrKnown w st0 ev' p := by
  rcases h with h | h
  · exact Or.inl (hsub _ h)
  · exact Or.inr h

/-- Invariant of the submission pass: every last-run directory recorded in
the partial-derivative chains is initial or was submitted. -/
def StInv (w : DfWorld) (st0 : DfState) (ev : List Event)
    (st : DfState) : Prop :=
  ∀ i s p, lastRunDirOf (partialDerivativeDir w.psDir i s)
      (st.partialRuns i s) = some p → SubmitOrKnown w st0 ev p

lemma stInv_mono (w : DfWorld) (st0 : DfState) {ev ev' : List Event}
    (hsub : ∀ e ∈ ev, e ∈ ev') {st : DfState}
    (h : StInv w st0 ev st) : StInv w st0 ev' st :=
  fun i s p hp => submitOrKnown_mono w st0 hsub (h i s p hp)

/-- Events of the submission pass: warnings and non-blocking submits of
partial-derivative runs only — in particular, no waits at all. -/
def SubmitPassEvent (e : Event) : Prop :=
  (∃ p, e = Event.submit p false ∧ isPartialRunPath p = true) ∨
    ∃ wr, e = Event.warn wr

/-- One submission-pass step: its events are non-blocking partial-run
submits and warnings, the invariant is preserved, and the recorded run
directory was submitted or is initial. -/
lemma df_submit_step_spec (cfg : ModelConfig) (w : DfWorld)
    (srd : Option Path) (ao : ℕ) (params : List ℚ) (i : ℕ) (factor : ℤ)
    (st0 : DfState) (evAcc : List Event) (st st1 : DfState)
    (entry : Path × ℚ) (ev : List Event)
    (h : df_submit_step cfg w srd ao params i factor st =
      Except.ok (st1, entry, ev))
    (hinv : StInv w st0 evAcc st) :
    (∀ e ∈ ev, SubmitPassEvent e) ∧
      StInv w st0 (evAcc ++ ev) st1 ∧
      SubmitOrKnown w st0 (evAcc ++ ev) entry.1 := by
  simp only [df_submit_step, bind, Except.bind] at h
  cases hlb : cfg.parametersLowerBound.get? i with
  | none => rw [hlb] at h; simp at h
  | some lb =>
      rw [hlb] at h
      simp only at h
      cases hub : cfg.parametersUpperBound.get? i with
      | none => rw [hub] at h; simp at h
      | some ub =>
          rw [hub] at h
          simp only at h
          cases hpi : params.get? i with
          | none => rw [hpi] at h; simp at h
          | some pv =>
              rw [hpi] at h
              simp only at h
              generalize hds : derivative_step lb ub pv factor ao = dsv at h
              obtain ⟨hstep, pdv⟩ := dsv
              simp only at h
              generalize hsg : (if 0 < hstep then (1 : ℤ)
                else if hstep < 0 then -1 else 0) = sg at h
              cases himo : is_run_matching_options cfg
                  (runDataOf (st.partialRuns i sg))
                  (some ⟨some (SpinupVal.num cfg.derivativeSpinupYears),
                    some (SpinupVal.num 0), some (SpinupVal.str "or")⟩) with
              | error e => rw [himo] at h; simp at h
              | ok mw =>
                  obtain ⟨m, wss⟩ := mw
                  rw [himo] at h
                  simp only at h
                  cases m with
                  | true =>
                      rw [if_pos rfl] at h
                      cases hro : lastRunDirOf (partialDerivativeDir w.psDir i sg)
                          (st.partialRuns i sg) with
                      | none => rw [hro] at h; simp at h
                      | some rdp =>
                          rw [hro] at h
                          simp only [Except.ok.injEq, Prod.mk.injEq] at h
                          obtain ⟨h1, h2, h3⟩ := h
                          subst h1; subst h2; subst h3
                          refine ⟨?_, ?_, ?_⟩
                          · intro e he
                            obtain ⟨x, -, rfl⟩ := List.mem_map.mp he
                            exact Or.inr ⟨x, rfl⟩
                          · exact stInv_mono w st0
                              (fun e he => List.mem_append.mpr (Or.inl he)) hinv
                          · exact submitOrKnown_mono w st0
                              (fun e he => List.mem_append.mpr (Or.inl he))
                              (hinv i sg rdp hro)
                  | false =>
                      rw [if_neg Bool.false_ne_true] at h
                      cases hmk : make_run cfg
                          (dfFs w ⟨st.spinupRuns,
                            updatePartial st.partialRuns i sg []⟩)
                          0 (partialDerivativeDir w.psDir i sg)
                          (params.set i pdv) cfg.derivativeSpinupYears 0
                          w.spinup.timeStep srd none with
                      | error e => rw [hmk] at h; simp at h
                      | ok r3 =>
                          obtain ⟨runDir, sub, evRun⟩ := r3
                          rw [hmk] at h
                          simp only [Except.ok.injEq, Prod.mk.injEq] at h
                          obtain ⟨h1, h2, h3⟩ := h
                          subst h1; subst h2; subst h3
                          obtain ⟨hrd, hev⟩ :=
                            make_run_events _ _ _ _ _ _ _ _ _ _ _ _ _ hmk
                          have hevr : evRun = [Event.submit runDir false] := by
                            rw [hev]; rfl
                          have hnp : isPartialRunPath runDir = true := by
                            rw [hrd]; exact iprp_partial_run _ _ _ _
                          have hin : Event.submit runDir false ∈
                              evAcc ++ (List.map Event.warn wss ++ evRun) := by
                            rw [hevr]; simp
                          refine ⟨?_, ?_, ?_⟩
                          · intro e he
                            rcases List.mem_append.mp he with he | he
                            · obtain ⟨x, -, rfl⟩ := List.mem_map.mp he
                              exact Or.inr ⟨x, rfl⟩
                            · rw [hevr] at he
                              rcases List.mem_singleton.mp he with rfl
                              exact Or.inl ⟨runDir, rfl, hnp⟩
                          · intro i2 s2 p hp
                            by_cases hk : i2 = i ∧ s2 = sg
                            · simp only [updatePartial, if_pos hk] at hp
                              obtain ⟨rfl, rfl⟩ := hk
                              simp only [lastRunDirOf, List.isEmpty_cons,
                                Bool.false_eq_true, if_false, List.length_cons,
                                List.length_nil, Option.some.injEq] at hp
                              have hpr : p = runDir := by
                                rw [hrd, ← hp]
                              rw [hpr]
                              exact Or.inl hin
                            · simp only [updatePartial, if_neg hk] at hp
                              exact submitOrKnown_mono w st0
                                (fun e he => List.mem_append.mpr (Or.inl he))
                                (hinv i2 s2 p hp)
                          · exact Or.inl hin

/-- The per-factor submission loop: submission-pass events only, invariant
preserved, every entry's run directory submitted or initial. -/
lemma df_submit_row_spec (cfg : ModelConfig) (w : DfWorld)
    (srd : Option Path) (ao : ℕ) (params : List ℚ) (i : ℕ) (st0 : DfState) :
    ∀ (factors : List ℤ) (evAcc : List Event) (st stR : DfState)
      (entries : List (Path × ℚ)) (ev : List Event),
      df_submit_row cfg w srd ao params i factors st =
        Except.ok (stR, entries, ev) →
      StInv w st0 evAcc st →
      (∀ e ∈ ev, SubmitPassEvent e) ∧
        StInv w st0 (evAcc ++ ev) stR ∧
        ∀ en ∈ entries, SubmitOrKnown w st0 (evAcc ++ ev) en.1 := by
  intro factors
  induction factors with
  | nil =>
      intro evAcc st stR entries ev h hinv
      simp only [df_submit_row, Except.ok.injEq, Prod.mk.injEq] at h
      obtain ⟨h1, h2, h3⟩ := h
      subst h1; subst h2; subst h3
      refine ⟨?_, ?_, ?_⟩
      · intro e he; simp at he
      · simpa using hinv
      · intro en hen; simp at hen
  | cons f rest ih =>
      intro evAcc st stR entries ev h hinv
      simp only [df_submit_row, bind, Except.bind] at h
      cases hs : df_submit_step cfg w srd ao params i f st with
      | error e => rw [hs] at h; simp at h
      | ok r1 =>
          obtain ⟨stA, enA, evA⟩ := r1
          rw [hs] at h
          simp only at h
          cases hr : df_submit_row cfg w srd ao params i rest stA with
          | error e => rw [hr] at h; simp at h
          | ok r2 =>
              obtain ⟨stB, enB, evB⟩ := r2
              rw [hr] at h
              simp only [Except.ok.injEq, Prod.mk.injEq] at h
              obtain ⟨h1, h2, h3⟩ := h
              subst h1; subst h2; subst h3
              obtain ⟨hse, hsi, hsk⟩ := df_submit_step_spec cfg w srd ao params
                i f st0 evAcc st stA enA evA hs hinv
              obtain ⟨hre, hri, hrk⟩ := ih (evAcc ++ evA) stA stB enB evB hr hsi
              have hmono : ∀ e ∈ evAcc ++ evA, e ∈ evAcc ++ (evA ++ evB) := by
                intro e he
                simp only [List.mem_append] at he ⊢
                tauto
              refine ⟨?_, ?_, ?_⟩
              · intro e he
                rcases List.mem_append.mp he with he | he
                · exact hse e he
                · exact hre e he
              · rw [List.append_assoc] at hri
                exact hri
              · intro en hen
                rcases List.mem_cons.mp hen with rfl | hen
                · exact submitOrKnown_mono w st0 hmono hsk
                · have := hrk en hen
                  rw [List.append_assoc] at this
                  exact this

/-- The per-parameter submission loop: submission-pass events only,
invariant preserved, every recorded run directory submitted or initial. -/
lemma df_submit_all_spec (cfg : ModelConfig) (w : DfWorld)
    (srd : Option Path) (ao : ℕ) (params : List ℚ) (hFactors : List ℤ)
    (st0 : DfState) :
    ∀ (idxs : List ℕ) (evAcc : List Event) (st stR : DfState)
      (rows : List (List (Path × ℚ))) (ev : List Event),
      df_submit_all cfg w srd ao params hFactors idxs st =
        Except.ok (stR, rows, ev) →
      StInv w st0 evAcc st →
      (∀ e ∈ ev, SubmitPassEvent e) ∧
        StInv w st0 (evAcc ++ ev) stR ∧
        ∀ row ∈ rows, ∀ en ∈ row, SubmitOrKnown w st0 (evAcc ++ ev) en.1 := by
  intro idxs
  induction idxs with
  | nil =>
      intro evAcc st stR rows ev h hinv
      simp only [df_submit_all, Except.ok.injEq, Prod.mk.injEq] at h
      obtain ⟨h1, h2, h3⟩ := h
      subst h1; subst h2; subst h3
      refine ⟨?_, ?_, ?_⟩
      · intro e he; simp at he
      · simpa using hinv
      · intro row hrow; simp at hrow
  | cons i rest ih =>
      intro evAcc st stR rows ev h hinv
      simp only [df_submit_all, bind, Except.bind] at h
      cases hs : df_submit_row cfg w srd ao params i hFactors st with
      | error e => rw [hs] at h; simp at h
      | ok r1 =>
          obtain ⟨stA, rowA, evA⟩ := r1
          rw [hs] at h
          simp only at h
          cases hr : df_submit_all cfg w srd ao params hFactors rest stA with
          | error e => rw [hr] at h; simp at h
          | ok r2 =>
              obtain ⟨stB, rowsB, evB⟩ := r2
              rw [hr] at h
              simp only [Except.ok.injEq, Prod.mk.injEq] at h
              obtain ⟨h1, h2, h3⟩ := h
              subst h1; subst h2; subst h3
              obtain ⟨hse, hsi, hsk⟩ := df_submit_row_spec cfg w srd ao params
                i st0 hFactors evAcc st stA rowA evA hs hinv
              obtain ⟨hre, hri, hrk⟩ := ih (evAcc ++ evA) stA stB rowsB evB hr hsi
              have hmono : ∀ e ∈ evAcc ++ evA, e ∈ evAcc ++ (evA ++ evB) := by
                intro e he
                simp only [List.mem_append] at he ⊢
                tauto
              refine ⟨?_, ?_, ?_⟩
              · intro e he
                rcases List.mem_append.mp he with he | he
                · exact hse e he
                · exact hre e he
              · rw [List.append_assoc] at hri
                exact hri
              · intro row hrow en hen
                rcases List.mem_cons.mp hrow with rfl | hrow
                · exact submitOrKnown_mono w st0 hmono (hsk en hen)
                · have := hrk row hrow en hen
                  rw [List.append_assoc] at this
                  exact this

/-- Every element of a job wait is the wait event on its path. -/
lemma wait_until_mem (p : Path) (ws : WaitSpec) :
    ∀ e ∈ wait_until_job_finished p ws, e = Event.wait p := by
  intro e he
  unfold wait_until_job_finished at he
  by_cases ht : WaitSpec.truthy ws = true
  · rw [if_pos ht] at he
    exact List.mem_singleton.mp he
  · rw [if_neg ht] at he
    simp at he

/-- Events of the wait pass: waits on recorded run directories (`P`) or on
non-partial paths, and submits of non-partial paths (trajectory jobs in
temporary directories) only. -/
def WaitPassEvent (P : Path → Prop) (e : Event) : Prop :=
  (∃ p, e = Event.wait p ∧ (P p ∨ isPartialRunPath p = false)) ∨
    ∃ p b, e = Event.submit p b ∧ isPartialRunPath p = false

lemma waitPassEvent_mono {P Q : Path → Prop} (hsub : ∀ p, P p → Q p)
    (e : Event) (h : WaitPassEvent P e) : WaitPassEvent Q e := by
  rcases h with ⟨p, rfl, hp | hp⟩ | ⟨p, b, rfl, hp⟩
  · exact Or.inl ⟨p, rfl, Or.inl (hsub p hp)⟩
  · exact Or.inl ⟨p, rfl, Or.inr hp⟩
  · exact Or.inr ⟨p, b, rfl, hp⟩

/-- One wait-pass step: a blocking wait on the recorded run directory plus
a trajectory job in a temporary (non-partial) directory. -/
lemma df_wait_step_spec (cfg : ModelConfig) (w : DfWorld) (params : List ℚ)
    (plen i fIdx : ℕ) (runDir : Path) (df df1 : Option Mat2)
    (ev : List Event)
    (h : df_wait_step cfg w params plen i fIdx runDir df =
      Except.ok (df1, ev)) :
    ∀ e ∈ ev, WaitPassEvent (fun p => p = runDir) e := by
  have htmp : isPartialRunPath (trajectory_tmp runDir) = false :=
    iprp_name_last runDir _
  simp only [df_wait_step, bind, Except.bind] at h
  cases hrj : run_job cfg params (trajectory_tmp runDir) 1 0
      w.spinup.timeStep (some 10) with
  | error e => rw [hrj] at h; simp at h
  | ok evT =>
      rw [hrj] at h
      simp only at h
      have hevT : ∀ e ∈ evT, WaitPassEvent (fun p => p = runDir) e := by
        have hT := run_job_events _ _ _ _ _ _ _ _ hrj
        rw [hT]
        intro e he
        rcases List.mem_cons.mp he with rfl | he
        · exact Or.inr ⟨trajectory_tmp runDir, _, rfl, htmp⟩
        · rw [wait_until_mem _ _ e he]
          exact Or.inl ⟨trajectory_tmp runDir, rfl, Or.inr htmp⟩
      have hevW : ∀ e ∈ wait_until_job_finished runDir (some (60 : ℚ)),
          WaitPassEvent (fun p => p = runDir) e := by
        intro e he
        rw [wait_until_mem _ _ e he]
        exact Or.inl ⟨runDir, rfl, Or.inl rfl⟩
      cases df with
      | none =>
          simp only at h
          cases hm0 : matModifyRow (zerosMat plen (w.traj runDir 0).length) i
              (fun row => vecAddScaled row ((-1) ^ fIdx) (w.traj runDir 0)) with
          | error e => rw [hm0] at h; simp at h
          | ok m0 =>
              rw [hm0] at h
              simp only at h
              cases hm1 : matModifyRow (zerosMat plen (w.traj runDir 1).length) i
                  (fun row => vecAddScaled row ((-1) ^ fIdx) (w.traj runDir 1)) with
              | error e => rw [hm1] at h; simp at h
              | ok m1 =>
                  rw [hm1] at h
                  simp only [Except.ok.injEq, Prod.mk.injEq] at h
                  obtain ⟨h1, h2⟩ := h
                  subst h2
                  intro e he
                  rcases List.mem_append.mp he with he | he
                  · exact hevW e he
                  · exact hevT e he
      | some m =>
          simp only at h
          cases hm0 : matModifyRow m.1 i
              (fun row => vecAddScaled row ((-1) ^ fIdx) (w.traj runDir 0)) with
          | error e => rw [hm0] at h; simp at h
          | ok m0 =>
              rw [hm0] at h
              simp only at h
              cases hm1 : matModifyRow m.2 i
                  (fun row => vecAddScaled row ((-1) ^ fIdx) (w.traj runDir 1)) with
              | error e => rw [hm1] at h; simp at h
              | ok m1 =>
                  rw [hm1] at h
                  simp only [Except.ok.injEq, Prod.mk.injEq] at h
                  obtain ⟨h1, h2⟩ := h
                  subst h2
                  intro e he
                  rcases List.mem_append.mp he with he | he
                  · exact hevW e he
                  · exact hevT e he

/-- The per-factor wait loop waits only on its entries' run directories. -/
lemma df_wait_row_spec (cfg : ModelConfig) (w : DfWorld) (params : List ℚ)
    (plen i : ℕ) :
    ∀ (entries : List (Path × ℚ)) (fIdx : ℕ) (df df2 : Option Mat2)
      (ev : List Event),
      df_wait_row cfg w params plen i fIdx entries df =
        Except.ok (df2, ev) →
      ∀ e ∈ ev, WaitPassEvent (fun p => ∃ en ∈ entries, en.1 = p) e := by
  intro entries
  induction entries with
  | nil =>
      intro fIdx df df2 ev h
      simp only [df_wait_row, Except.ok.injEq, Prod.mk.injEq] at h
      obtain ⟨h1, h2⟩ := h
      subst h2
      intro e he
      simp at he
  | cons en rest ih =>
      intro fIdx df df2 ev h
      simp only [df_wait_row, bind, Except.bind] at h
      cases hs : df_wait_step cfg w params plen i fIdx en.1 df with
      | error e => rw [hs] at h; simp at h
      | ok r1 =>
          obtain ⟨dfA, evA⟩ := r1
          rw [hs] at h
          simp only at h
          cases hr : df_wait_row cfg w params plen i (fIdx + 1) rest dfA with
          | error e => rw [hr] at h; simp at h
          | ok r2 =>
              obtain ⟨dfB, evB⟩ := r2
              rw [hr] at h
              simp only [Except.ok.injEq, Prod.mk.injEq] at h
              obtain ⟨h1, h2⟩ := h
              subst h2
              intro e he
              rcases List.mem_append.mp he with he | he
              · refine waitPassEvent_mono ?_ e
                  (df_wait_step_spec cfg w params plen i fIdx en.1 df dfA evA
                    hs e he)
                intro p hp
                exact ⟨en, List.mem_cons_self en rest, hp.symm⟩
              · refine waitPassEvent_mono ?_ e (ih (fIdx + 1) dfA dfB evB hr e he)
                intro p hp
                obtain ⟨en2, hen2, hp2⟩ := hp
                exact ⟨en2, List.mem_cons_of_mem en hen2, hp2⟩

/-- The wait-and-accumulate loop waits only on the recorded run
directories; its submits are trajectory jobs in temporary directories. -/
lemma df_wait_all_spec (cfg : ModelConfig) (w : DfWorld) (params : List ℚ)
    (plen ao : ℕ) (fOpt : Option (List Val × List Val)) :
    ∀ (rows : List (List (Path × ℚ))) (i : ℕ) (df df3 : Option Mat2)
      (ev : List Event),
      df_wait_all cfg w params plen ao fOpt i rows df =
        Except.ok (df3, ev) →
      ∀ e ∈ ev,
        WaitPassEvent (fun p => ∃ row ∈ rows, ∃ en ∈ row, en.1 = p) e := by
  intro rows
  induction rows with
  | nil =>
      intro i df df3 ev h
      simp only [df_wait_all, Except.ok.injEq, Prod.mk.injEq] at h
      obtain ⟨h1, h2⟩ := h
      subst h2
      intro e he
      simp at he
  | cons row rest ih =>
      intro i df df3 ev h
      simp only [df_wait_all, bind, Except.bind] at h
      cases hs : df_wait_row cfg w params plen i 0 row df with
      | error e => rw [hs] at h; simp at h
      | ok r1 =>
          obtain ⟨dfA, evA⟩ := r1
          rw [hs] at h
          simp only at h
          have hA : ∀ e ∈ evA,
              WaitPassEvent (fun p => ∃ row2 ∈ row :: rest, ∃ en ∈ row2, en.1 = p) e := by
            intro e he
            refine waitPassEvent_mono ?_ e
              (df_wait_row_spec cfg w params plen i row 0 df dfA evA hs e he)
            intro p hp
            obtain ⟨en, hen, hp2⟩ := hp
            exact ⟨row, List.mem_cons_self row rest, en, hen, hp2⟩

          cases dfA with
          | none =>
              simp only at h
              cases hr : df_wait_all cfg w params plen ao fOpt (i + 1) rest none with
              | error e => rw [hr] at h; simp at h
              | ok r2 =>
                  obtain ⟨dfB, evB⟩ := r2
                  rw [hr] at h
                  simp only [Except.ok.injEq, Prod.mk.injEq] at h
                  obtain ⟨h1, h2⟩ := h
                  subst h2
                  intro e he
                  rcases List.mem_append.mp he with he | he
                  · exact hA e he
                  · refine waitPassEvent_mono ?_ e (ih (i + 1) none dfB evB hr e he)
                    intro p hp
                    obtain ⟨row2, hrow2, en, hen, hp2⟩ := hp
                    exact ⟨row2, List.mem_cons_of_mem row hrow2, en, hen, hp2⟩
          | some m =>
              simp only at h
              cases hfin : df_finalize_row ao fOpt (List.map Prod.snd row) i m with
              | error e => rw [hfin] at h; simp at h
              | ok mF =>
                  rw [hfin] at h
                  simp only at h
                  cases hr : df_wait_all cfg w params plen ao fOpt (i + 1) rest (some mF) with
                  | error e => rw [hr] at h; simp at h
                  | ok r2 =>
                      obtain ⟨dfB, evB⟩ := r2
                      rw [hr] at h
                      simp only [Except.ok.injEq, Prod.mk.injEq] at h
                      obtain ⟨h1, h2⟩ := h
                      subst h2
                      intro e he
                      rcases List.mem_append.mp he with he | he
                      · exact hA e he
                      · refine waitPassEvent_mono ?_ e
                          (ih (i + 1) (some mF) dfB evB hr e he)
                        intro p hp
                        obtain ⟨row2, hrow2, en, hen, hp2⟩ := hp
                        exact ⟨row2, List.mem_cons_of_mem row hrow2, en, hen, hp2⟩


/-- Assembling the phase decomposition from the per-phase event
classifications. -/
lemma c7_assemble (w : DfWorld) (st : DfState)
    (evW evSp evF ev1 ev2 : List Event) (rows : List (List (Path × ℚ)))
    (hW : ∀ e ∈ evW, ∃ wr, e = Event.warn wr)
    (hSp : ∀ e ∈ evSp, Event.partialTouch e = false)
    (hF : ∀ e ∈ evF, Event.partialTouch e = false)
    (h1 : ∀ e ∈ ev1, SubmitPassEvent e)
    (h1k : ∀ row ∈ rows, ∀ en ∈ row, Event.submit en.1 false ∈ ev1 ∨
      ∃ i s, lastRunDirOf (partialDerivativeDir w.psDir i s)
        (st.partialRuns i s) = some en.1)
    (h2 : ∀ e ∈ ev2,
      WaitPassEvent (fun p => ∃ row ∈ rows, ∃ en ∈ row, en.1 = p) e) :
    ∃ t1 t2, (((evW ++ evSp) ++ evF) ++ ev1) ++ ev2 = t1 ++ t2 ∧
      (∀ p, Event.wait p ∈ t1 → isPartialRunPath p = false) ∧
      (∀ p b, Event.submit p b ∈ t2 → isPartialRunPath p = false) ∧
      (∀ p b, Event.submit p b ∈ (((evW ++ evSp) ++ evF) ++ ev1) ++ ev2 →
        isPartialRunPath p = true → b = false) ∧
      (∀ p, Event.wait p ∈ t2 → isPartialRunPath p = true →
        Event.submit p false ∈ t1 ∨
          ∃ i s, lastRunDirOf (partialDerivativeDir w.psDir i s)
            (st.partialRuns i s) = some p) ∧
      (∀ rd, wait_until_job_finished rd none = []) := by
  refine ⟨((evW ++ evSp) ++ evF) ++ ev1, ev2, rfl, ?_, ?_, ?_, ?_, ?_⟩
  · intro p hp
    rcases List.mem_append.mp hp with hp | hp
    · rcases List.mem_append.mp hp with hp | hp
      · rcases List.mem_append.mp hp with hp | hp
        · obtain ⟨wr, heq⟩ := hW _ hp
          cases heq
        · have hc := hSp _ hp
          simpa [Event.partialTouch] using hc
      · have hc := hF _ hp
        simpa [Event.partialTouch] using hc
    · rcases h1 _ hp with ⟨q, heq, -⟩ | ⟨wr, heq⟩ <;> cases heq
  · intro p b hp
    rcases h2 _ hp with ⟨q, heq, -⟩ | ⟨q, b2, heq, hq⟩
    · cases heq
    · injection heq with e1 e2
      subst e1
      exact hq
  · intro p b hp hpart
    rcases List.mem_append.mp hp with hp | hp
    · rcases List.mem_append.mp hp with hp | hp
      · rcases List.mem_append.mp hp with hp | hp
        · rcases List.mem_append.mp hp with hp | hp
          · obtain ⟨wr, heq⟩ := hW _ hp
            cases heq
          · have hc := hSp _ hp
            simp [Event.partialTouch, hpart] at hc
        · have hc := hF _ hp
          simp [Event.partialTouch, hpart] at hc
      · rcases h1 _ hp with ⟨q, heq, hq⟩ | ⟨wr, heq⟩
        · simp only [Event.submit.injEq] at heq
          exact heq.2
        · cases heq
    · rcases h2 _ hp with ⟨q, heq, -⟩ | ⟨q, b2, heq, hq⟩
      · cases heq
      · injection heq with e1 e2
        subst e1
        rw [hq] at hpart
        cases hpart
  · intro p hp hpart
    rcases h2 _ hp with ⟨q, heq, hq | hq⟩ | ⟨q, b2, heq, -⟩
    · injection heq with e1
      subst e1
      obtain ⟨row, hrow, en, hen, hpe⟩ := hq
      rcases h1k row hrow en hen with hL | hR
      · exact Or.inl (List.mem_append.mpr (Or.inr (hpe ▸ hL)))
      · exact Or.inr (hpe ▸ hR)
    · injection heq with e1
      subst e1
      rw [hq] at hpart
      cases hpart
    · cases heq
  · intro rd
    rfl

/-- C7: a derivative computation's event trace splits into a prefix `t1`
(spinup management plus the one-pass submission of every needed
partial-derivative run, each submitted with a falsy wait interval — under
which `wait_until_job_finished` does not wait at all) and a suffix `t2`
(the wait pass): no partial-derivative run is waited on in `t1`, none is
submitted in `t2`, and every partial-derivative run waited on in `t2` was
either submitted in `t1` or is the last run its directory already recorded
in the initial state. -/
theorem c7_partial_runs_submitted_before_waited (cfg : ModelConfig)
    (w : DfWorld) (st : DfState) (params : List ℚ)
    (opts : Option SpinupOptions) (accuracyOrder depth : ℕ) (st2 : DfState)
    (dfo : Option Mat2) (ev : List Event)
    (h : _df cfg w st params opts accuracyOrder depth =
      Except.ok (st2, dfo, ev)) :
    ∃ t1 t2, ev = t1 ++ t2 ∧
      (∀ p, Event.wait p ∈ t1 → isPartialRunPath p = false) ∧
      (∀ p b, Event.submit p b ∈ t2 → isPartialRunPath p = false) ∧
      (∀ p b, Event.submit p b ∈ ev → isPartialRunPath p = true →
        b = false) ∧
      (∀ p, Event.wait p ∈ t2 → isPartialRunPath p = true →
        Event.submit p false ∈ t1 ∨
          ∃ i s, lastRunDirOf (partialDerivativeDir w.psDir i s)
            (st.partialRuns i s) = some p) ∧
      (∀ rd, wait_until_job_finished rd none = []) := by
  by_cases ha1 : accuracyOrder = 1
  · subst ha1
    simp only [_df, bind, Except.bind] at h
    simp only [if_true] at h
    cases hao : all_spinup_options cfg opts with
    | error e => rw [hao] at h; simp at h
    | ok r0 =>
        obtain ⟨⟨yv, tv, cv⟩, ws⟩ := r0
        rw [hao] at h
        simp only at h
        cases hyy : pyNum yv with
        | error e => rw [hyy] at h; simp at h
        | ok years =>
            rw [hyy] at h
            simp only at h
            cases hsp : get_spinup_run_dir cfg w.spinup w.psDir
                cfg.startFromClosest st.spinupRuns
                (some ⟨some (SpinupVal.num (years - cfg.derivativeSpinupYears)),
                  tv, cv⟩) depth with
            | error e => rw [hsp] at h; simp at h
            | ok rsp =>
                obtain ⟨runs1, spd0, evSp⟩ := rsp
                rw [hsp] at h
                simp only at h
                cases hty : get_total_years (dfFs w ⟨runs1, st.partialRuns⟩)
                    (some spd0) (run_index_fuel spd0) with
                | error e => rw [hty] at h; simp at h
                | ok years0 =>
                    rw [hty] at h
                    simp only at h
                    cases hprev : get_previous_run_dir spd0 with
                    | error e => rw [hprev] at h; simp at h
                    | ok prev =>
                        rw [hprev] at h
                        simp only at h
                        cases prev with
                        | none =>
                            simp only at h
                            cases hpy : get_total_years
                                (dfFs w ⟨runs1, st.partialRuns⟩) (none : Option Path) 1 with
                            | error e => rw [hpy] at h; simp at h
                            | ok prevY =>
                                rw [hpy] at h
                                simp only at h
                                generalize hsd :
                                  (if prevY = years0 - cfg.derivativeSpinupYears
                                    then ((none : Option Path), prevY)
                                    else (some spd0, years0)) = sdp at h
                                obtain ⟨sd, sy⟩ := sdp
                                simp only at h
                                cases hsp2 : get_spinup_run_dir cfg w.spinup w.psDir
                                    cfg.startFromClosest runs1
                                    (some ⟨some (SpinupVal.num
                                        (sy + cfg.derivativeSpinupYears)),
                                      some (SpinupVal.num 0),
                                      some (SpinupVal.str "or")⟩) depth with
                                | error e => rw [hsp2] at h; simp at h
                                | ok rsp2 =>
                                    obtain ⟨runsF, baseDir, evF1⟩ := rsp2
                                    rw [hsp2] at h
                                    simp only at h
                                    cases hrj2 : run_job cfg params
                                        (trajectory_tmp baseDir) 1 0
                                        w.spinup.timeStep (some 10) with
                                    | error e => rw [hrj2] at h; simp at h
                                    | ok evF2 =>
                                        rw [hrj2] at h
                                        simp only at h
                                        cases hsub : df_submit_all cfg w sd 1 params
                                            [1] (List.range params.length)
                                            ⟨runsF, st.partialRuns⟩ with
                                        | error e => rw [hsub] at h; simp at h
                                        | ok rS =>
                                            obtain ⟨st3, rows, ev1⟩ := rS
                                            rw [hsub] at h
                                            simp only at h
                                            cases hwait : df_wait_all cfg w params
                                                params.length 1
                                                (some (w.traj baseDir 0,
                                                  w.traj baseDir 1)) 0 rows none with
                                            | error e => rw [hwait] at h; simp at h
                                            | ok rW =>
                                                obtain ⟨dfo2, ev2⟩ := rW
                                                rw [hwait] at h
                                                simp only [Except.ok.injEq,
                                                  Prod.mk.injEq] at h
                                                obtain ⟨h1, h2, h3⟩ := h
                                                subst h2; subst h3
                                                have hinv0 : StInv w
                                                    ⟨runsF, st.partialRuns⟩ []
                                                    ⟨runsF, st.partialRuns⟩ :=
                                                  fun i s p hp => Or.inr ⟨i, s, hp⟩
                                                obtain ⟨hse, -, hsk⟩ :=
                                                  df_submit_all_spec cfg w sd 1
                                                    params [1]
                                                    ⟨runsF, st.partialRuns⟩
                                                    (List.range params.length) []
                                                    ⟨runsF, st.partialRuns⟩ st3
                                                    rows ev1 hsub hinv0
                                                have hevF2 :=
                                                  run_job_events _ _ _ _ _ _ _ _ hrj2
                                                refine c7_assemble w st
                                                  (List.map Event.warn ws) evSp
                                                  (evF1 ++ evF2) ev1 ev2 rows ?_ ?_
                                                  ?_ hse ?_
                                                  (df_wait_all_spec cfg w params
                                                    params.length 1 _ rows 0 none
                                                    dfo2 ev2 hwait)
                                                · intro e he
                                                  obtain ⟨x, -, rfl⟩ :=
                                                    List.mem_map.mp he
                                                  exact ⟨x, rfl⟩
                                                · exact gssrd_events_safe cfg w.spinup
                                                    w.psDir cfg.startFromClosest
                                                    depth st.spinupRuns _ _ hsp
                                                · intro e he
                                                  rcases List.mem_append.mp he with
                                                    he | he
                                                  · exact gssrd_events_safe cfg
                                                      w.spinup w.psDir
                                                      cfg.startFromClosest depth
                                                      runs1 _ _ hsp2 e he
                                                  · rw [hevF2] at he
                                                    exact submit_wait_partialTouch
                                                      (trajectory_tmp baseDir) _ _
                                                      (iprp_name_last baseDir _)
                                                      e he
                                                · intro row hrow en hen
                                                  exact hsk row hrow en hen
                        | some pp =>
                            simp only at h
                            cases hpy : get_total_years
                                (dfFs w ⟨runs1, st.partialRuns⟩) (some pp) (run_index_fuel pp) with
                            | error e => rw [hpy] at h; simp at h
                            | ok prevY =>
                                rw [hpy] at h
                                simp only at h
                                generalize hsd :
                                  (if prevY = years0 - cfg.derivativeSpinupYears
                                    then ((some pp), prevY)
                                    else (some spd0, years0)) = sdp at h
                                obtain ⟨sd, sy⟩ := sdp
                                simp only at h
                                cases hsp2 : get_spinup_run_dir cfg w.spinup w.psDir
                                    cfg.startFromClosest runs1
                                    (some ⟨some (SpinupVal.num
                                        (sy + cfg.derivativeSpinupYears)),
                                      some (SpinupVal.num 0),
                                      some (SpinupVal.str "or")⟩) depth with
                                | error e => rw [hsp2] at h; simp at h
                                | ok rsp2 =>
                                    obtain ⟨runsF, baseDir, evF1⟩ := rsp2
                                    rw [hsp2] at h
                                    simp only at h
                                    cases hrj2 : run_job cfg params
                                        (trajectory_tmp baseDir) 1 0
                                        w.spinup.timeStep (some 10) with
                                    | error e => rw [hrj2] at h; simp at h
                                    | ok evF2 =>
                                        rw [hrj2] at h
                                        simp only at h
                                        cases hsub : df_submit_all cfg w sd 1 params
                                            [1] (List.range params.length)
                                            ⟨runsF, st.partialRuns⟩ with
                                        | error e => rw [hsub] at h; simp at h
                                        | ok rS =>
                                            obtain ⟨st3, rows, ev1⟩ := rS
                                            rw [hsub] at h
                                            simp only at h
                                            cases hwait : df_wait_all cfg w params
                                                params.length 1
                                                (some (w.traj baseDir 0,
                                                  w.traj baseDir 1)) 0 rows none with
                                            | error e => rw [hwait] at h; simp at h
                                            | ok rW =>
                                                obtain ⟨dfo2, ev2⟩ := rW
                                                rw [hwait] at h
                                                simp only [Except.ok.injEq,
                                                  Prod.mk.injEq] at h
                                                obtain ⟨h1, h2, h3⟩ := h
                                                subst h2; subst h3
                                                have hinv0 : StInv w
                                                    ⟨runsF, st.partialRuns⟩ []
                                                    ⟨runsF, st.partialRuns⟩ :=
                                                  fun i s p hp => Or.inr ⟨i, s, hp⟩
                                                obtain ⟨hse, -, hsk⟩ :=
                                                  df_submit_all_spec cfg w sd 1
                                                    params [1]
                                                    ⟨runsF, st.partialRuns⟩
                                                    (List.range params.length) []
                                                    ⟨runsF, st.partialRuns⟩ st3
                                                    rows ev1 hsub hinv0
                                                have hevF2 :=
                                                  run_job_events _ _ _ _ _ _ _ _ hrj2
                                                refine c7_assemble w st
                                                  (List.map Event.warn ws) evSp
                                                  (evF1 ++ evF2) ev1 ev2 rows ?_ ?_
                                                  ?_ hse ?_
                                                  (df_wait_all_spec cfg w params
                                                    params.length 1 _ rows 0 none
                                                    dfo2 ev2 hwait)
                                                · intro e he
                                                  obtain ⟨x, -, rfl⟩ :=
                                                    List.mem_map.mp he
                                                  exact ⟨x, rfl⟩
                                                · exact gssrd_events_safe cfg w.spinup
                                                    w.psDir cfg.startFromClosest
                                                    depth st.spinupRuns _ _ hsp
                                                · intro e he
                                                  rcases List.mem_append.mp he with
                                                    he | he
                                                  · exact gssrd_events_safe cfg
                                                      w.spinup w.psDir
                                                      cfg.startFromClosest depth
                                                      runs1 _ _ hsp2 e he
                                                  · rw [hevF2] at he
                                                    exact submit_wait_partialTouch
                                                      (trajectory_tmp baseDir) _ _
                                                      (iprp_name_last baseDir _)
                                                      e he
                                                · intro row hrow en hen
                                                  exact hsk row hrow en hen
  · by_cases ha2 : accuracyOrder = 2
    · subst ha2
      simp only [_df, bind, Except.bind] at h
      rw [if_neg (by decide : ¬(2 = 1))] at h
      simp only [if_true] at h
      cases hao : all_spinup_options cfg opts with
      | error e => rw [hao] at h; simp at h
      | ok r0 =>
          obtain ⟨⟨yv, tv, cv⟩, ws⟩ := r0
          rw [hao] at h
          simp only at h
          cases hyy : pyNum yv with
          | error e => rw [hyy] at h; simp at h
          | ok years =>
              rw [hyy] at h
              simp only at h
              cases hsp : get_spinup_run_dir cfg w.spinup w.psDir
                  cfg.startFromClosest st.spinupRuns
                  (some ⟨some (SpinupVal.num
                      (years - cfg.derivativeSpinupYears)), tv, cv⟩)
                  depth with
              | error e => rw [hsp] at h; simp at h
              | ok rsp =>
                  obtain ⟨runs1, spd0, evSp⟩ := rsp
                  rw [hsp] at h
                  simp only at h
                  cases hty : get_total_years (dfFs w ⟨runs1, st.partialRuns⟩)
                      (some spd0) (run_index_fuel spd0) with
                  | error e => rw [hty] at h; simp at h
                  | ok years0 =>
                      rw [hty] at h
                      simp only at h
                      rw [if_neg (by decide : ¬(2 = 1))] at h
                      cases hsub : df_submit_all cfg w (some spd0) 2 params
                          [1, -1] (List.range params.length)
                          ⟨runs1, st.partialRuns⟩ with
                      | error e => rw [hsub] at h; simp at h
                      | ok rS =>
                          obtain ⟨st3, rows, ev1⟩ := rS
                          rw [hsub] at h
                          simp only at h
                          cases hwait : df_wait_all cfg w params params.length
                              2 none 0 rows none with
                          | error e => rw [hwait] at h; simp at h
                          | ok rW =>
                              obtain ⟨dfo2, ev2⟩ := rW
                              rw [hwait] at h
                              simp only [Except.ok.injEq, Prod.mk.injEq] at h
                              obtain ⟨h1, h2, h3⟩ := h
                              subst h2; subst h3
                              have hinv0 : StInv w ⟨runs1, st.partialRuns⟩ []
                                  ⟨runs1, st.partialRuns⟩ :=
                                fun i s p hp => Or.inr ⟨i, s, hp⟩
                              obtain ⟨hse, -, hsk⟩ :=
                                df_submit_all_spec cfg w (some spd0) 2 params
                                  [1, -1] ⟨runs1, st.partialRuns⟩
                                  (List.range params.length) []
                                  ⟨runs1, st.partialRuns⟩ st3 rows ev1 hsub
                                  hinv0
                              refine c7_assemble w st (List.map Event.warn ws)
                                evSp [] ev1 ev2 rows ?_ ?_ ?_ hse ?_
                                (df_wait_all_spec cfg w params params.length 2
                                  none rows 0 none dfo2 ev2 hwait)
                              · intro e he
                                obtain ⟨x, -, rfl⟩ := List.mem_map.mp he
                                exact ⟨x, rfl⟩
                              · exact gssrd_events_safe cfg w.spinup w.psDir
                                  cfg.startFromClosest depth st.spinupRuns _ _
                                  hsp
                              · intro e he
                                simp at he
                              · intro row hrow en hen
                                exact hsk row hrow en hen
    · simp only [_df, bind, Except.bind] at h
      rw [if_neg ha1, if_neg ha2] at h
      simp at h
/-- Witness for C7 at the concrete derivative world: both partial runs are
already converged, so the trace has no partial-run submits (`t1 = []`) and
each partial run waited on is the recorded last run of its directory. -/
theorem c7_witness :
    ∃ t1 t2,
      ([Event.wait [PathComp.name "derivative", PathComp.part 0 1,
          PathComp.run 0],
        Event.submit [PathComp.name "derivative", PathComp.part 0 1,
          PathComp.run 0, PathComp.name "trajectory_tmp"] true,
        Event.wait [PathComp.name "derivative", PathComp.part 0 1,
          PathComp.run 0, PathComp.name "trajectory_tmp"],
        Event.wait [PathComp.name "derivative", PathComp.part 0 (-1),
          PathComp.run 0],
        Event.submit [PathComp.name "derivative", PathComp.part 0 (-1),
          PathComp.run 0, PathComp.name "trajectory_tmp"] true,
        Event.wait [PathComp.name "derivative", PathComp.part 0 (-1),
          PathComp.run 0, PathComp.name "trajectory_tmp"]] : List Event) =
        t1 ++ t2 ∧
      (∀ p, Event.wait p ∈ t1 → isPartialRunPath p = false) ∧
      (∀ p b, Event.submit p b ∈ t2 → isPartialRunPath p = false) ∧
      (∀ p b, Event.submit p b ∈
        ([Event.wait [PathComp.name "derivative", PathComp.part 0 1,
            PathComp.run 0],
          Event.submit [PathComp.name "derivative", PathComp.part 0 1,
            PathComp.run 0, PathComp.name "trajectory_tmp"] true,
          Event.wait [PathComp.name "derivative", PathComp.part 0 1,
            PathComp.run 0, PathComp.name "trajectory_tmp"],
          Event.wait [PathComp.name "derivative", PathComp.part 0 (-1),
            PathComp.run 0],
          Event.submit [PathComp.name "derivative", PathComp.part 0 (-1),
            PathComp.run 0, PathComp.name "trajectory_tmp"] true,
          Event.wait [PathComp.name "derivative", PathComp.part 0 (-1),
            PathComp.run 0, PathComp.name "trajectory_tmp"]] : List Event) →
        isPartialRunPath p = true → b = false) ∧
      (∀ p, Event.wait p ∈ t2 → isPartialRunPath p = true →
        Event.submit p false ∈ t1 ∨
          ∃ i s, lastRunDirOf (partialDerivativeDir exampleDfWorld.psDir i s)
            (exampleDfState.partialRuns i s) = some p) ∧
      (∀ rd, wait_until_job_finished rd none = []) := by
  have h : _df exampleConfig1 exampleDfWorld exampleDfState [1]
      (some ⟨some (SpinupVal.num 10000), some (SpinupVal.num 0),
        some (SpinupVal.str "or")⟩) 2 1 =
      Except.ok (exampleDfState,
        some ([[Val.num 0]], [[Val.num 0]]),
        [Event.wait [PathComp.name "derivative", PathComp.part 0 1,
            PathComp.run 0],
          Event.submit [PathComp.name "derivative", PathComp.part 0 1,
            PathComp.run 0, PathComp.name "trajectory_tmp"] true,
          Event.wait [PathComp.name "derivative", PathComp.part 0 1,
            PathComp.run 0, PathComp.name "trajectory_tmp"],
          Event.wait [PathComp.name "derivative", PathComp.part 0 (-1),
            PathComp.run 0],
          Event.submit [PathComp.name "derivative", PathComp.part 0 (-1),
            PathComp.run 0, PathComp.name "trajectory_tmp"] true,
          Event.wait [PathComp.name "derivative", PathComp.part 0 (-1),
            PathComp.run 0, PathComp.name "trajectory_tmp"]]) := by
    norm_num [_df, df_submit_all, df_submit_row, df_submit_step,
      df_wait_all, df_wait_row, df_wait_step, df_finalize_row,
      matModifyRow, vecAddScaled, vecSub, vecDivQ, zerosMat, zerosVec,
      Val.add, Val.scale, Val.divQ, Val.isnan, anyNanMat, derivative_step,
      partialDerivativeDir, derivative_dirname, lastRunDirOf, runDataOf,
      irmo_or, all_spinup_options_concrete, pyNum, get_spinup_run_dir,
      get_total_years, run_index_fuel, dfFs, spinupWorldFs, chainFs,
      partialFs, trajectory_tmp, wait_until_job_finished, WaitSpec.truthy,
      run_job, check_if_parameters_in_bounds, exampleConfig1,
      exampleDfWorld, exampleDfState, exampleChain, examplePartialChain,
      spinup_dirname, get_previous_run_dir, get_int_in_comp, Except.map,
      Except.bind, bind, pure]
  exact c7_partial_runs_submitted_before_waited exampleConfig1 exampleDfWorld
    exampleDfState [1]
    (some ⟨some (SpinupVal.num 10000), some (SpinupVal.num 0),
      some (SpinupVal.str "or")⟩) 2 1 exampleDfState
    (some ([[Val.num 0]], [[Val.num 0]])) _ h

end NdopModel
